import Mathlib

/-!
# krakend-lua: configuration parsing and source loading (`config.go`)

A shallow embedding of `Parse`, of the two `SourceLoader` implementations
(`onceLoader`, `liveLoader`) and of the error values of `config.go`, followed
by theorems about them.

Modelling conventions

* A Go `string` is a Lean `String`; its bytes are its UTF-8 encoding.
* A Go `interface{}` value is a `Value` (the dynamic types a decoded
  configuration holds).
* A Go `map[string]T` is an association list `GoMap T`; indexing finds the first
  pair with the key, and the pairs a `range` loop visits are `mapEntries`, one
  per distinct key, in an order chosen by a `range` oracle.
* The file system is a function from a path to the result of `ioutil.ReadFile`.
* The logger is the list of the entries written so far.
* `crypto/md5` and `encoding/hex` are library code; they are modelled after
  RFC 1321 and the `encoding/hex` table so that digests can be evaluated.
-/

namespace Lua

/-! ## Library model: `crypto/md5` (RFC 1321) and `encoding/hex` -/

namespace MD5

/-- Per-round left-rotation amounts. -/
def shifts : List Nat :=
  [7, 12, 17, 22, 7, 12, 17, 22, 7, 12, 17, 22, 7, 12, 17, 22,
   5, 9, 14, 20, 5, 9, 14, 20, 5, 9, 14, 20, 5, 9, 14, 20,
   4, 11, 16, 23, 4, 11, 16, 23, 4, 11, 16, 23, 4, 11, 16, 23,
   6, 10, 15, 21, 6, 10, 15, 21, 6, 10, 15, 21, 6, 10, 15, 21]

/-- The sine-derived additive constants, one per round. -/
def sines : List Nat :=
  [0xd76aa478, 0xe8c7b756, 0x242070db, 0xc1bdceee,
   0xf57c0faf, 0x4787c62a, 0xa8304613, 0xfd469501,
   0x698098d8, 0x8b44f7af, 0xffff5bb1, 0x895cd7be,
   0x6b901122, 0xfd987193, 0xa679438e, 0x49b40821,
   0xf61e2562, 0xc040b340, 0x265e5a51, 0xe9b6c7aa,
   0xd62f105d, 0x02441453, 0xd8a1e681, 0xe7d3fbc8,
   0x21e1cde6, 0xc33707d6, 0xf4d50d87, 0x455a14ed,
   0xa9e3e905, 0xfcefa3f8, 0x676f02d9, 0x8d2a4c8a,
   0xfffa3942, 0x8771f681, 0x6d9d6122, 0xfde5380c,
   0xa4beea44, 0x4bdecfa9, 0xf6bb4b60, 0xbebfbc70,
   0x289b7ec6, 0xeaa127fa, 0xd4ef3085, 0x04881d05,
   0xd9d4d039, 0xe6db99e5, 0x1fa27cf8, 0xc4ac5665,
   0xf4292244, 0x432aff97, 0xab9423a7, 0xfc93a039,
   0x655b59c3, 0x8f0ccc92, 0xffeff47d, 0x85845dd1,
   0x6fa87e4f, 0xfe2ce6e0, 0xa3014314, 0x4e0811a1,
   0xf7537e82, 0xbd3af235, 0x2ad7d2bb, 0xeb86d391]

/-- Reduction to a 32-bit word. -/
def w32 (x : Nat) : Nat := x % 4294967296

/-- Bitwise complement of a 32-bit word. -/
def not32 (x : Nat) : Nat := w32 x ^^^ 0xffffffff

/-- Left rotation of a 32-bit word by `c` bits. -/
def rotl (x c : Nat) : Nat := w32 ((w32 x <<< c) ||| (w32 x >>> (32 - c)))

/-- The four chaining words `A`, `B`, `C`, `D`. -/
structure State where
  a : Nat
  b : Nat
  c : Nat
  d : Nat
deriving DecidableEq, Repr

/-- Initial chaining value. -/
def init : State := ⟨0x67452301, 0xefcdab89, 0x98badcfe, 0x10325476⟩

/-- Round `i` (0 ≤ i < 64) on the 16 message words `m`. -/
def step (m : List Nat) (st : State) (i : Nat) : State :=
  let f :=
    if i < 16 then (st.b &&& st.c) ||| (not32 st.b &&& st.d)
    else if i < 32 then (st.d &&& st.b) ||| (not32 st.d &&& st.c)
    else if i < 48 then st.b ^^^ st.c ^^^ st.d
    else st.c ^^^ (st.b ||| not32 st.d)
  let g :=
    if i < 16 then i
    else if i < 32 then (5 * i + 1) % 16
    else if i < 48 then (3 * i + 5) % 16
    else (7 * i) % 16
  let t := w32 (f + st.a + sines.getD i 0 + m.getD g 0)
  ⟨st.d, w32 (st.b + rotl t (shifts.getD i 0)), st.b, st.c⟩

/-- Little-endian 32-bit word from four bytes. -/
def leWord (bs : List Nat) : Nat :=
  bs.getD 0 0 + 256 * bs.getD 1 0 + 65536 * bs.getD 2 0 + 16777216 * bs.getD 3 0

/-- The 16 message words of one 64-byte block. -/
def blockWords (blk : List Nat) : List Nat :=
  (List.range 16).map (fun j => leWord ((blk.drop (4 * j)).take 4))

/-- Compression of one 64-byte block into the chaining value. -/
def compress (st : State) (blk : List Nat) : State :=
  let m := blockWords blk
  let r := (List.range 64).foldl (step m) st
  ⟨w32 (st.a + r.a), w32 (st.b + r.b), w32 (st.c + r.c), w32 (st.d + r.d)⟩

/-- Little-endian bytes of `x`, `n` of them. -/
def leBytes : Nat → Nat → List Nat
  | 0, _ => []
  | n + 1, x => x % 256 :: leBytes n (x / 256)

/-- Message padding: a `0x80` byte, zeros up to 56 mod 64, then the bit length on 8 bytes. -/
def pad (msg : List Nat) : List Nat :=
  let n := msg.length
  let z := (55 + 64 - n % 64) % 64
  msg ++ 0x80 :: List.replicate z 0 ++ leBytes 8 (8 * n)

/-- Processing of `k` consecutive 64-byte blocks. -/
def blocks : Nat → State → List Nat → State
  | 0, st, _ => st
  | k + 1, st, bs => blocks k (compress st (bs.take 64)) (bs.drop 64)

/-- The 16-byte MD5 digest of a byte sequence (`hash.Sum(nil)` after writing `msg`). -/
def sum (msg : List Nat) : List Nat :=
  let p := pad msg
  let st := blocks (p.length / 64) init p
  leBytes 4 st.a ++ leBytes 4 st.b ++ leBytes 4 st.c ++ leBytes 4 st.d

end MD5

/-- UTF-8 bytes of one character. -/
def charBytes (c : Char) : List Nat :=
  let n := c.toNat
  if n < 0x80 then [n]
  else if n < 0x800 then [0xC0 + n / 64, 0x80 + n % 64]
  else if n < 0x10000 then [0xE0 + n / 4096, 0x80 + n / 64 % 64, 0x80 + n % 64]
  else [0xF0 + n / 262144, 0x80 + n / 4096 % 64, 0x80 + n / 64 % 64, 0x80 + n % 64]

/-- The bytes of a Go string: `[]byte(content)`. -/
def stringBytes (s : String) : List Nat :=
  (s.data.map charBytes).flatten

/-- The `encoding/hex` digit table, `"0123456789abcdef"`. -/
def hextable : List Char := "0123456789abcdef".data

/-- Go `hex.EncodeToString`: two table digits per byte, high nibble first. -/
def hexEncodeToString (bs : List Nat) : String :=
  String.mk ((bs.map (fun b => [hextable.getD (b / 16 % 16) '0', hextable.getD (b % 16) '0'])).flatten)

/-- Lines 95-100 of `Parse`: the lowercase hex digest of `content`,
`hex.EncodeToString(hash.Sum(nil)[:16])` after `content` was copied into `md5.New()`.
Writing to a `hash.Hash` never returns an error, so the `io.Copy` error branch
is not reachable and does not appear. -/
def md5Hex (content : String) : String :=
  hexEncodeToString ((MD5.sum (stringBytes content)).take 16)

/-! ## Data model -/

/-- A Go `map[string]T` as an association list; the first pair with a key is its binding. -/
abbrev GoMap (α : Type) := List (String × α)

/-- Go `v, ok := m[k]`: `some v` when `ok`, `none` otherwise. -/
def mapGet {α : Type} : GoMap α → String → Option α
  | [], _ => none
  | (k', v) :: rest, k => if k' = k then some v else mapGet rest k

/-- Go `m[k] = v`: the binding of `k` is replaced. -/
def mapSet {α : Type} (m : GoMap α) (k : String) (v : α) : GoMap α :=
  (k, v) :: m.filter (fun p => p.1 != k)

/-- The key/value pairs of a map, one per distinct key: what a `range` loop visits, in some order. -/
def mapEntries {α : Type} : GoMap α → List (String × α)
  | [] => []
  | (k, v) :: rest => (k, v) :: (mapEntries rest).filter (fun p => p.1 != k)

/-- A Go `interface{}` holding decoded configuration data. `null` is the nil interface,
`num` a number, `list` a `[]interface{}` and `obj` a `map[string]interface{}`. -/
inductive Value where
  | null
  | bool (b : Bool)
  | num (n : Int)
  | str (s : String)
  | list (xs : List Value)
  | obj (m : List (String × Value))

/-- Type `config.ExtraConfig`, a `map[string]interface{}`. -/
abbrev ExtraConfig := GoMap Value

/-- Type assertion `x.(string)` on the result of a map index (`none`: key absent, nil interface). -/
def assertString : Option Value → Option String
  | some (.str s) => some s
  | _ => none

/-- Type assertion `x.(bool)`. -/
def assertBool : Option Value → Option Bool
  | some (.bool b) => some b
  | _ => none

/-- Type assertion `x.([]interface{})`. -/
def assertSlice : Option Value → Option (List Value)
  | some (.list xs) => some xs
  | _ => none

/-- Type assertion `x.(map[string]interface{})`. -/
def assertMap : Option Value → Option (GoMap Value)
  | some (.obj m) => some m
  | _ => none

/-- The file system: the result of `ioutil.ReadFile` on a path, content or error message. -/
abbrev FileSystem := String → Except String String

/-- One entry written to the logger: its level is `Error`, `args` are the values passed. -/
structure LogEntry where
  args : List String
deriving DecidableEq, Repr

/-- The logger, as the list of entries written so far. -/
abbrev Logger := List LogEntry

/-- Logger method `Error(v ...)`: appends one entry. -/
def Logger.Error (l : Logger) (args : List String) : Logger := l ++ [⟨args⟩]

/-- Type `onceLoader`, a `map[string]string`. -/
abbrev onceLoader := GoMap String

/-- Method `onceLoader.Get`. -/
def onceLoader.Get (o : onceLoader) (k : String) : String × Bool :=
  match mapGet o k with
  | some v => (v, true)
  | none => ("", false)

/-- Method `liveLoader.Get`: reads the file at call time. -/
def liveLoader.Get (fs : FileSystem) (k : String) : String × Bool :=
  match fs k with
  | .error _ => ("", false)
  | .ok b => (b, true)

/-- The `SourceLoader` interface value held by a `Config`: nil, an `onceLoader` or a `*liveLoader`. -/
inductive SourceLoader where
  | nil
  | once (o : onceLoader)
  | live
deriving DecidableEq, Repr

/-- Interface method `SourceLoader.Get`; calling it on the nil interface panics (`none`). -/
def SourceLoader.Get (fs : FileSystem) : SourceLoader → String → Option (String × Bool)
  | .nil, _ => none
  | .once o, k => some (onceLoader.Get o k)
  | .live, k => some (liveLoader.Get fs k)

/-- Type `Config`. A nil and an empty `Sources` slice are both the empty list. -/
structure Config where
  Sources : List String := []
  PreCode : String := ""
  PostCode : String := ""
  SkipNext : Bool := false
  AllowOpenLibs : Bool := false
  SourceLoader : SourceLoader := .nil
deriving DecidableEq, Repr

/-- Method `Config.Get`. -/
def Config.Get (fs : FileSystem) (c : Config) (k : String) : Option (String × Bool) :=
  c.SourceLoader.Get fs k

/-- The error values of the package. -/
inductive Error where
  | ErrNoExtraConfig
  | ErrWrongExtraConfig
  | ErrWrongChecksumType (source : String)
  | ErrWrongChecksum (Source Actual Expected : String)
  | ErrUnknownSource (source : String)
deriving DecidableEq, Repr

/-- What a call of `Parse` produces: the returned `Config`, the returned `error`
(`none` for nil) and the logger after the call. -/
structure Outcome where
  cfg : Config
  err : Option Error
  log : Logger
deriving DecidableEq, Repr

/-! ## `Parse` -/

/-- Lines 58-63: the loop that appends the string elements of `sources` to `s`. -/
def collectSources (sources : List Value) : List String :=
  sources.foldl (fun s source =>
    match assertString (some source) with
    | some t => s ++ [t]
    | none => s) []

/-- Lines 75-80: one iteration of the preload loop on the map `loader` and the logger. -/
def preloadStep (fs : FileSystem) (st : onceLoader × Logger) (source : String) :
    onceLoader × Logger :=
  match fs source with
  | .error err => (st.1, st.2.Error ["lua:", err])
  | .ok b => (mapSet st.1 source b, st.2)

/-- Lines 72-81: the preload loop over `res.Sources`, from the empty map. -/
def preload (fs : FileSystem) (l : Logger) (sources : List String) : onceLoader × Logger :=
  sources.foldl (preloadStep fs) ([], l)

/-- Lines 90-106: the body of the checksum loop for the pair `(source, c)`;
`some` is the error returned, `none` lets the loop continue. -/
def checkEntry (loader : onceLoader) (source : String) (c : Value) : Option Error :=
  match assertString (some c) with
  | none => some (.ErrWrongChecksumType source)
  | some checksum =>
    let content := (onceLoader.Get loader source).1
    let actual := md5Hex content
    if checksum != actual then
      some (.ErrWrongChecksum source actual checksum)
    else none

/-- Lines 89-109: the checksum loop over the pairs in the order visited;
stops at the first error. -/
def verify (loader : onceLoader) : List (String × Value) → Option Error
  | [] => none
  | (source, c) :: rest =>
    match checkEntry loader source c with
    | some err => some err
    | none => verify loader rest

/-- Lines 43-65: the options copied from the namespace mapping `c` into `res`. -/
def parseOptions (res : Config) (c : GoMap Value) : Config :=
  let res := match assertString (mapGet c "pre") with
    | some pre => { res with PreCode := pre }
    | none => res
  let res := match assertString (mapGet c "post") with
    | some post => { res with PostCode := post }
    | none => res
  let res := match assertBool (mapGet c "skip_next") with
    | some true => { res with SkipNext := true }
    | _ => res
  let res := match assertBool (mapGet c "allow_open_libs") with
    | some true => { res with AllowOpenLibs := true }
    | _ => res
  match assertSlice (mapGet c "sources") with
  | some sources => { res with Sources := collectSources sources }
  | none => res

/-- Function `Parse`. `order` gives the order in which `range` visits the
pairs of the md5 map, `fs` is the file system and `l` the logger before the call. -/
def Parse (order : List (String × Value) → List (String × Value)) (fs : FileSystem)
    (l : Logger) (e : ExtraConfig) (nspace : String) : Outcome :=
  let res : Config := {}
  match mapGet e nspace with
  | none => ⟨res, some .ErrNoExtraConfig, l⟩
  | some v =>
    match assertMap (some v) with
    | none => ⟨res, some .ErrWrongExtraConfig, l⟩
    | some c =>
      let res := parseOptions res c
      match assertBool (mapGet c "live") with
      | some true => ⟨{ res with SourceLoader := .live }, none, l⟩
      | _ =>
        let p := preload fs l res.Sources
        let res := { res with SourceLoader := .once p.1 }
        match assertMap (mapGet c "md5") with
        | none => ⟨res, none, p.2⟩
        | some checksums => ⟨res, verify p.1 (order (mapEntries checksums)), p.2⟩

/-- An order of visit is admissible when it visits each pair of the map exactly once. -/
def IsRangeOrder (order : List (String × Value) → List (String × Value)) : Prop :=
  ∀ xs, (order xs).Perm xs

/-! ## Example inputs -/

/-- A file system holding `a.lua` (content `x`) and `s.lua` (content `print(1)`). -/
def exampleFS : FileSystem := fun p =>
  if p = "a.lua" then .ok "x"
  else if p = "s.lua" then .ok "print(1)"
  else .error ("open " ++ p ++ ": no such file or directory")

/-- The empty file system: every read fails. -/
def emptyFS : FileSystem := fun p => .error ("open " ++ p ++ ": no such file or directory")

/-- The correct digest of `print(1)`. -/
def digestPrint1 : String := "186bdbe41e79ea696410ba0a9e8d2762"

/-- A wrong digest of 32 hex characters. -/
def digestWrong : String := "00000000000000000000000000000000"

/-- Namespace mapping: source `s.lua` with its correct digest. -/
def nsGood : GoMap Value :=
  [("sources", .list [.str "s.lua"]), ("md5", .obj [("s.lua", .str digestPrint1)])]

/-- Namespace mapping: source `s.lua` with a wrong digest. -/
def nsWrong : GoMap Value :=
  [("sources", .list [.str "s.lua"]), ("md5", .obj [("s.lua", .str digestWrong)])]

/-- Namespace mapping: `live` is true and `s.lua` has a wrong digest. -/
def nsLiveWrong : GoMap Value :=
  [("sources", .list [.str "s.lua"]), ("live", .bool true),
   ("md5", .obj [("s.lua", .str digestWrong)])]

/-- Namespace mapping: two md5 values that are numbers. -/
def nsTwoNumbers : GoMap Value :=
  [("sources", .list [.str "a.lua", .str "b.lua"]),
   ("md5", .obj [("a.lua", .num 1), ("b.lua", .num 2)])]

/-- Namespace mapping: the md5 value of `s.lua` is a number, that of `a.lua` is correct. -/
def nsOneNumber : GoMap Value :=
  [("sources", .list [.str "a.lua", .str "s.lua"]),
   ("md5", .obj [("s.lua", .num 7), ("a.lua", .str "9dd4e461268c8034f5c8564e155c67a6")])]

/-- Namespace mapping: sources `a.lua` and `b.lua`, no `live`, no `md5`. -/
def nsTwoSources : GoMap Value :=
  [("sources", .list [.str "a.lua", .str "b.lua"])]

/-- Namespace mapping: `live` is true, a number among the md5 values. -/
def nsLive : GoMap Value :=
  [("sources", .list [.str "a.lua"]), ("live", .bool true), ("md5", .obj [("a.lua", .num 1)])]

/-- Namespace mapping: a number and a boolean among the `sources`, one source twice. -/
def nsMixedSources : GoMap Value :=
  [("sources", .list [.str "b.lua", .num 3, .str "a.lua", .bool true, .str "b.lua"])]

/-- Namespace mapping: the mapping `nsMixedSources` without the non-string sources. -/
def nsStringSources : GoMap Value :=
  [("sources", .list [.str "b.lua", .str "a.lua", .str "b.lua"])]

/-- Namespace mapping: an md5 entry for `b.lua`, which no file system here holds,
with the digest of the empty string. -/
def nsMissingEmptyDigest : GoMap Value :=
  [("sources", .list [.str "b.lua"]),
   ("md5", .obj [("b.lua", .str "d41d8cd98f00b204e9800998ecf8427e")])]

/-- Namespace mapping: the `md5` option is a string. -/
def nsMd5String : GoMap Value :=
  [("sources", .list [.str "a.lua"]), ("md5", .str digestWrong)]

/-- Namespace mapping: `skip_next` is the string `true`, `allow_open_libs` the boolean true,
`pre` a string and `post` a number. -/
def nsFlags : GoMap Value :=
  [("skip_next", .str "true"), ("allow_open_libs", .bool true), ("pre", .str "print(0)"),
   ("post", .num 1), ("sources", .list [.str "a.lua"])]

/-- Namespace mapping: the mapping `nsFlags` with `skip_next` the number 1 and
`allow_open_libs` false. -/
def nsFlagsOther : GoMap Value :=
  [("skip_next", .num 1), ("allow_open_libs", .bool false), ("pre", .str "print(0)"),
   ("post", .num 1), ("sources", .list [.str "a.lua"])]

/-- Namespace mapping: the `pre` and `post` of `nsFlags` with other sources and `live`. -/
def nsPreOnly : GoMap Value :=
  [("pre", .str "print(0)"), ("post", .num 1), ("sources", .list [.str "s.lua", .str "b.lua"]),
   ("live", .bool true)]

/-- Namespace mapping: `s.lua` with its correct digest spelled in uppercase. -/
def nsUpperDigest : GoMap Value :=
  [("sources", .list [.str "s.lua"]), ("md5", .obj [("s.lua", .str "186BDBE41E79EA696410BA0A9E8D2762")])]

/-- Namespace mapping: `live` is true, no other option. -/
def nsLiveOnly : GoMap Value := [("live", .bool true)]

/-- Namespace mapping: `live` is the string `true`. -/
def nsLiveString : GoMap Value :=
  [("sources", .list [.str "a.lua"]), ("live", .str "true")]

/-- Namespace mapping: `b.lua` declared twice around `a.lua`, with a wrong digest for `a.lua`. -/
def nsFailingReads : GoMap Value :=
  [("sources", .list [.str "b.lua", .str "a.lua", .str "b.lua"]),
   ("md5", .obj [("a.lua", .str digestWrong)])]

/-- Namespace mapping: the mapping `nsWrong` without its `md5` option. -/
def nsWrongNoMd5 : GoMap Value :=
  [("sources", .list [.str "s.lua"])]

/-! ## Auxiliary lemmas -/

theorem mapGet_filter_ne {α : Type} (m : GoMap α) (k k' : String) :
    mapGet (m.filter (fun p => p.1 != k)) k' = if k = k' then none else mapGet m k' := by
  induction m with
  | nil => simp [mapGet]
  | cons p rest ih =>
    obtain ⟨a, b⟩ := p
    by_cases hak : a = k
    · subst hak
      by_cases h : a = k'
      · subst h
        simpa [List.filter, mapGet] using ih
      · simpa [List.filter, mapGet, h] using ih
    · have : (a != k) = true := by simpa using hak
      by_cases h : a = k'
      · subst h
        simp [List.filter, this, mapGet, Ne.symm hak]
      · simp [List.filter, this, mapGet, h, ih]

theorem mapGet_mapSet {α : Type} (m : GoMap α) (k k' : String) (v : α) :
    mapGet (mapSet m k v) k' = if k = k' then some v else mapGet m k' := by
  unfold mapSet
  by_cases h : k = k'
  · simp [mapGet, h]
  · simp [mapGet, h, mapGet_filter_ne]

theorem mem_mapEntries {α : Type} (m : GoMap α) (k : String) (v : α) :
    (k, v) ∈ mapEntries m ↔ mapGet m k = some v := by
  induction m with
  | nil => simp [mapEntries, mapGet]
  | cons p rest ih =>
    obtain ⟨a, b⟩ := p
    by_cases h : a = k
    · subst h
      simp [mapEntries, mapGet, eq_comm]
    · have h' : ¬ k = a := fun e => h e.symm
      simp [mapEntries, mapGet, h, h', ih]

theorem verify_eq_none_iff (loader : onceLoader) (xs : List (String × Value)) :
    verify loader xs = none ↔ ∀ p ∈ xs, checkEntry loader p.1 p.2 = none := by
  induction xs with
  | nil => simp [verify]
  | cons p rest ih =>
    obtain ⟨a, b⟩ := p
    cases h : checkEntry loader a b with
    | none => simp [verify, h, ih]
    | some err => simp [verify, h]

theorem verify_eq_some (loader : onceLoader) (xs : List (String × Value)) (err : Error)
    (h : verify loader xs = some err) :
    ∃ pre p post, xs = pre ++ p :: post ∧ checkEntry loader p.1 p.2 = some err ∧
      ∀ q ∈ pre, checkEntry loader q.1 q.2 = none := by
  induction xs with
  | nil => simp [verify] at h
  | cons p rest ih =>
    obtain ⟨a, b⟩ := p
    cases hc : checkEntry loader a b with
    | some err' =>
      simp [verify, hc] at h
      subst h
      exact ⟨[], (a, b), rest, rfl, hc, by simp⟩
    | none =>
      simp [verify, hc] at h
      obtain ⟨pre, p, post, hx, hp, hpre⟩ := ih h
      refine ⟨(a, b) :: pre, p, post, by simp [hx], hp, ?_⟩
      intro q hq
      rcases List.mem_cons.1 hq with rfl | hq
      · exact hc
      · exact hpre q hq

theorem verify_append_cons (loader : onceLoader) (pre post : List (String × Value))
    (p : String × Value) (h : ∀ q ∈ pre, checkEntry loader q.1 q.2 = none) :
    verify loader (pre ++ p :: post) =
      match checkEntry loader p.1 p.2 with
      | some err => some err
      | none => verify loader post := by
  induction pre with
  | nil => obtain ⟨a, b⟩ := p; simp [verify]
  | cons q rest ih =>
    obtain ⟨a, b⟩ := q
    have hq : checkEntry loader a b = none := h (a, b) (by simp)
    have := ih (fun q hq => h q (List.mem_cons_of_mem _ hq))
    simp [verify, hq, this]

theorem assertBool_eq_true_iff (x : Option Value) :
    assertBool x = some true ↔ x = some (.bool true) := by
  cases x with
  | none => simp [assertBool]
  | some v => cases v <;> simp [assertBool]

theorem assertString_some (v : Value) (s : String) :
    assertString (some v) = some s ↔ v = .str s := by
  cases v <;> simp [assertString]

theorem assertString_none (v : Value) :
    assertString (some v) = none ↔ ∀ s, v ≠ .str s := by
  cases v <;> simp [assertString]

theorem Parse_live (order : List (String × Value) → List (String × Value)) (fs : FileSystem)
    (l : Logger) (e : ExtraConfig) (nspace : String) (c : GoMap Value)
    (hns : mapGet e nspace = some (.obj c)) (hlive : mapGet c "live" = some (.bool true)) :
    Parse order fs l e nspace = ⟨{ parseOptions {} c with SourceLoader := .live }, none, l⟩ := by
  simp [Parse, hns, assertMap, hlive, assertBool]

theorem Parse_once (order : List (String × Value) → List (String × Value)) (fs : FileSystem)
    (l : Logger) (e : ExtraConfig) (nspace : String) (c : GoMap Value)
    (hns : mapGet e nspace = some (.obj c)) (hlive : mapGet c "live" ≠ some (.bool true)) :
    Parse order fs l e nspace =
      ⟨{ parseOptions {} c with
          SourceLoader := .once (preload fs l (parseOptions {} c).Sources).1 },
        (match assertMap (mapGet c "md5") with
          | none => none
          | some checksums =>
            verify (preload fs l (parseOptions {} c).Sources).1 (order (mapEntries checksums))),
        (preload fs l (parseOptions {} c).Sources).2⟩ := by
  have hb : assertBool (mapGet c "live") ≠ some true := fun h =>
    hlive ((assertBool_eq_true_iff _).1 h)
  have hm : assertMap (some (Value.obj c)) = some c := rfl
  unfold Parse
  simp only [hns, hm]
  cases hl : assertBool (mapGet c "live") with
  | none => cases assertMap (mapGet c "md5") <;> rfl
  | some b =>
    cases b with
    | true => exact absurd hl hb
    | false => cases assertMap (mapGet c "md5") <;> rfl

theorem preloadStep_get (fs : FileSystem) (st : onceLoader × Logger) (a id : String) :
    mapGet (preloadStep fs st a).1 id =
      match fs a with
      | .ok b => if a = id then some b else mapGet st.1 id
      | .error _ => mapGet st.1 id := by
  unfold preloadStep
  cases fs a with
  | error err => rfl
  | ok b => simp [mapGet_mapSet]

theorem preload_fold_get (fs : FileSystem) (srcs : List String) (st : onceLoader × Logger)
    (id : String) :
    mapGet (srcs.foldl (preloadStep fs) st).1 id =
      if id ∈ srcs then
        (match fs id with
          | .ok b => some b
          | .error _ => mapGet st.1 id)
      else mapGet st.1 id := by
  induction srcs generalizing st with
  | nil => simp
  | cons a rest ih =>
    rw [List.foldl_cons, ih, preloadStep_get]
    by_cases ha : a = id
    · subst ha
      cases h : fs a <;> simp
    · have ha' : ¬ id = a := fun e => ha e.symm
      cases h : fs a <;> simp [ha, ha']

theorem preload_get (fs : FileSystem) (l : Logger) (srcs : List String) (id : String) :
    mapGet (preload fs l srcs).1 id =
      if id ∈ srcs then
        (match fs id with
          | .ok b => some b
          | .error _ => none)
      else none := by
  unfold preload
  rw [preload_fold_get]
  rfl

theorem collectSources_fold (xs : List Value) (acc : List String) :
    xs.foldl (fun s source =>
      match assertString (some source) with
      | some t => s ++ [t]
      | none => s) acc = acc ++ xs.filterMap (fun v => assertString (some v)) := by
  induction xs generalizing acc with
  | nil => simp
  | cons v rest ih =>
    rw [List.foldl_cons, ih]
    cases h : assertString (some v) <;> simp [List.filterMap_cons, h]

theorem collectSources_eq (xs : List Value) :
    collectSources xs = xs.filterMap (fun v => assertString (some v)) := by
  unfold collectSources
  rw [collectSources_fold]
  simp

theorem Parse_absent (order : List (String × Value) → List (String × Value)) (fs : FileSystem)
    (l : Logger) (e : ExtraConfig) (nspace : String) (hns : mapGet e nspace = none) :
    Parse order fs l e nspace = ⟨{}, some .ErrNoExtraConfig, l⟩ := by
  simp [Parse, hns]

theorem Parse_notMap (order : List (String × Value) → List (String × Value)) (fs : FileSystem)
    (l : Logger) (e : ExtraConfig) (nspace : String) (v : Value)
    (hns : mapGet e nspace = some v) (hv : ∀ c, v ≠ .obj c) :
    Parse order fs l e nspace = ⟨{}, some .ErrWrongExtraConfig, l⟩ := by
  cases v with
  | obj m => exact absurd rfl (hv m)
  | _ => simp [Parse, hns, assertMap]

theorem checkEntry_eq_none_iff (loader : onceLoader) (k : String) (v : Value) :
    checkEntry loader k v = none ↔ v = .str (md5Hex (onceLoader.Get loader k).1) := by
  cases v <;> simp [checkEntry, assertString]

theorem checkEntry_str (loader : onceLoader) (k expected : String) :
    checkEntry loader k (.str expected) =
      if expected = md5Hex (onceLoader.Get loader k).1 then none
      else some (.ErrWrongChecksum k (md5Hex (onceLoader.Get loader k).1) expected) := by
  by_cases h : expected = md5Hex (onceLoader.Get loader k).1 <;> simp [checkEntry, assertString, h]

theorem checkEntry_notString (loader : onceLoader) (k : String) (v : Value)
    (hv : ∀ s, v ≠ .str s) : checkEntry loader k v = some (.ErrWrongChecksumType k) := by
  cases v with
  | str s => exact absurd rfl (hv s)
  | _ => simp [checkEntry, assertString]

theorem checkEntry_ne_none_iff (loader : onceLoader) (k : String) (v : Value) :
    checkEntry loader k v ≠ none ↔
      ((∀ s, v ≠ .str s) ∨ ∃ s, v = .str s ∧ s ≠ md5Hex (onceLoader.Get loader k).1) := by
  rw [Ne, checkEntry_eq_none_iff]
  cases v <;> simp

theorem mem_order_iff (order : List (String × Value) → List (String × Value))
    (horder : IsRangeOrder order) (cs : GoMap Value) (k : String) (v : Value) :
    (k, v) ∈ order (mapEntries cs) ↔ mapGet cs k = some v := by
  rw [(horder (mapEntries cs)).mem_iff, mem_mapEntries]

theorem verify_order_eq_none_iff (order : List (String × Value) → List (String × Value))
    (horder : IsRangeOrder order) (loader : onceLoader) (cs : GoMap Value) :
    verify loader (order (mapEntries cs)) = none ↔
      ∀ k v, mapGet cs k = some v → checkEntry loader k v = none := by
  rw [verify_eq_none_iff]
  constructor
  · intro h k v hkv
    exact h (k, v) ((mem_order_iff order horder cs k v).2 hkv)
  · intro h p hp
    exact h p.1 p.2 ((mem_order_iff order horder cs p.1 p.2).1 hp)

theorem verify_order_eq_some (order : List (String × Value) → List (String × Value))
    (horder : IsRangeOrder order) (loader : onceLoader) (cs : GoMap Value) (err : Error)
    (h : verify loader (order (mapEntries cs)) = some err) :
    ∃ k v, mapGet cs k = some v ∧ checkEntry loader k v = some err := by
  obtain ⟨pre, p, post, hx, hp, -⟩ := verify_eq_some loader _ err h
  refine ⟨p.1, p.2, (mem_order_iff order horder cs p.1 p.2).1 ?_, hp⟩
  rw [hx]
  simp

set_option maxRecDepth 100000 in
theorem md5Hex_empty : md5Hex "" = "d41d8cd98f00b204e9800998ecf8427e" := by decide

set_option maxRecDepth 100000 in
theorem md5Hex_print1 : md5Hex "print(1)" = digestPrint1 := by decide

set_option maxRecDepth 100000 in
theorem md5Hex_x : md5Hex "x" = "9dd4e461268c8034f5c8564e155c67a6" := by decide

theorem parseOptions_congr (res : Config) (c c' : GoMap Value)
    (hpre : mapGet c' "pre" = mapGet c "pre") (hpost : mapGet c' "post" = mapGet c "post")
    (hskip : mapGet c' "skip_next" = mapGet c "skip_next")
    (hopen : mapGet c' "allow_open_libs" = mapGet c "allow_open_libs")
    (hsrc : assertSlice (mapGet c' "sources") = none ∧ assertSlice (mapGet c "sources") = none ∨
      ∃ xs xs', assertSlice (mapGet c' "sources") = some xs' ∧
        assertSlice (mapGet c "sources") = some xs ∧ collectSources xs' = collectSources xs) :
    parseOptions res c' = parseOptions res c := by
  unfold parseOptions
  rw [hpre, hpost, hskip, hopen]
  rcases hsrc with ⟨h1, h2⟩ | ⟨xs, xs', h1, h2, h3⟩
  · rw [h1, h2]
  · rw [h1, h2]
    simp only [h3]

theorem parseOptions_congr_of_eq (res : Config) (c c' : GoMap Value)
    (hpre : mapGet c' "pre" = mapGet c "pre") (hpost : mapGet c' "post" = mapGet c "post")
    (hskip : mapGet c' "skip_next" = mapGet c "skip_next")
    (hopen : mapGet c' "allow_open_libs" = mapGet c "allow_open_libs")
    (hsrc : mapGet c' "sources" = mapGet c "sources") :
    parseOptions res c' = parseOptions res c := by
  unfold parseOptions
  rw [hpre, hpost, hskip, hopen, hsrc]

theorem parseOptions_sources (res : Config) (c : GoMap Value) (xs : List Value)
    (h : mapGet c "sources" = some (.list xs)) :
    (parseOptions res c).Sources = collectSources xs := by
  unfold parseOptions
  simp only [h, assertSlice]

theorem assertMap_eq_none (x : Option Value) (h : ∀ cs, x ≠ some (.obj cs)) :
    assertMap x = none := by
  cases x with
  | none => rfl
  | some v =>
    cases v with
    | obj cs => exact absurd rfl (h cs)
    | _ => rfl

theorem verify_ne_unknownSource (loader : onceLoader) (xs : List (String × Value)) (s : String) :
    verify loader xs ≠ some (.ErrUnknownSource s) := by
  intro h
  obtain ⟨pre, p, post, -, hp, -⟩ := verify_eq_some loader xs _ h
  obtain ⟨k, v⟩ := p
  cases v with
  | str x =>
    rw [checkEntry_str] at hp
    split at hp <;> simp at hp
  | _ => simp [checkEntry, assertString] at hp

/-! ## Claims -/

/-- C1: in non-live mode with an `md5` option that is a string-keyed mapping, for
every file system and every order of visit of the md5 mapping, `Parse` returns
the populated configuration (the options of the namespace with the snapshot
loader), and it returns an error if and only if some md5 entry is not a string
or is a string different from the hex MD5 of the snapshot content of its
identifier (the empty string when the snapshot has none); so without such an
entry the populated configuration comes with no error. -/
theorem C1_parse_fails_iff_bad_md5_entry
    (order : List (String × Value) → List (String × Value)) (fs : FileSystem) (l : Logger)
    (e : ExtraConfig) (nspace : String) (c cs : GoMap Value)
    (horder : IsRangeOrder order)
    (hns : mapGet e nspace = some (.obj c))
    (hlive : mapGet c "live" ≠ some (.bool true))
    (hmd5 : mapGet c "md5" = some (.obj cs)) :
    (Parse order fs l e nspace).cfg =
        { parseOptions {} c with
          SourceLoader := .once (preload fs l (parseOptions {} c).Sources).1 } ∧
      ((Parse order fs l e nspace).err ≠ none ↔
        ∃ id v, mapGet cs id = some v ∧
          ((∀ s, v ≠ .str s) ∨
            ∃ s, v = .str s ∧
              s ≠ md5Hex (onceLoader.Get (preload fs l (parseOptions {} c).Sources).1 id).1)) ∧
      ((¬ ∃ id v, mapGet cs id = some v ∧
          ((∀ s, v ≠ .str s) ∨
            ∃ s, v = .str s ∧
              s ≠ md5Hex (onceLoader.Get (preload fs l (parseOptions {} c).Sources).1 id).1)) →
        (Parse order fs l e nspace).err = none) := by
  have hiff : (Parse order fs l e nspace).err ≠ none ↔
        ∃ id v, mapGet cs id = some v ∧
          ((∀ s, v ≠ .str s) ∨
            ∃ s, v = .str s ∧
              s ≠ md5Hex (onceLoader.Get (preload fs l (parseOptions {} c).Sources).1 id).1) := by
    rw [Parse_once order fs l e nspace c hns hlive]
    simp only [hmd5, assertMap]
    rw [Ne, verify_order_eq_none_iff order horder]
    constructor
    · intro h
      by_contra hne
      apply h
      intro k v hkv
      by_contra hc
      exact hne ⟨k, v, hkv, (checkEntry_ne_none_iff _ k v).1 hc⟩
    · rintro ⟨k, v, hkv, hbad⟩ h
      exact (checkEntry_ne_none_iff _ k v).2 hbad (h k v hkv)
  refine ⟨?_, hiff, ?_⟩
  · rw [Parse_once order fs l e nspace c hns hlive]
  · intro hno
    by_contra herr
    exact hno (hiff.1 herr)

/-- C1, at `s.lua` declared with its correct digest: parsing succeeds. -/
theorem C1_witness :
    (Parse id exampleFS [] [("lua", .obj nsGood)] "lua").err = none :=
  (C1_parse_fails_iff_bad_md5_entry id exampleFS [] [("lua", .obj nsGood)] "lua" nsGood
    [("s.lua", .str digestPrint1)] (fun _ => List.Perm.refl _) rfl (by simp [nsGood, mapGet])
    rfl).2.2 (by
      rintro ⟨k, v, hkv, hbad⟩
      have hk : k = "s.lua" ∧ v = .str digestPrint1 := by
        by_cases h : "s.lua" = k
        · simp [mapGet, h] at hkv
          exact ⟨h.symm, hkv.symm⟩
        · simp [mapGet, h] at hkv
      obtain ⟨rfl, rfl⟩ := hk
      rcases hbad with h | ⟨s, hs, hne⟩
      · exact h _ rfl
      · injection hs with hs
        subst hs
        apply hne
        have hc : (onceLoader.Get (preload exampleFS []
            (parseOptions {} nsGood).Sources).1 "s.lua").1 = "print(1)" := by decide
        rw [hc, md5Hex_print1])

/-- C2 (as stated, refuted): with `live` true, the md5 mapping has the single
entry `(s.lua, w)` where `w` is a string different from the digest of the
content of `s.lua`, and `Parse` returns no error, hence no `ErrWrongChecksum`. -/
theorem C2_counterexample :
    mapGet [("lua", Value.obj nsLiveWrong)] "lua" = some (.obj nsLiveWrong) ∧
      mapGet nsLiveWrong "md5" = some (.obj [("s.lua", .str digestWrong)]) ∧
      exampleFS "s.lua" = .ok "print(1)" ∧
      digestWrong ≠ md5Hex "print(1)" ∧
      (Parse id exampleFS [] [("lua", .obj nsLiveWrong)] "lua").err = none ∧
      (Parse id exampleFS [] [("lua", .obj nsLiveWrong)] "lua").err ≠
        some (.ErrWrongChecksum "s.lua" (md5Hex "print(1)") digestWrong) := by
  refine ⟨rfl, rfl, rfl, ?_, by decide, by decide⟩
  rw [md5Hex_print1]
  decide

/-- C2 (amended): whenever `Parse` fails with `ErrWrongChecksum{Source, Actual, Expected}`,
`Source` is a key of the `md5` mapping, `Expected` is the string configured for
it, `Actual` is the hex MD5 of the snapshot loader's content for `Source`, and
`Actual` differs from `Expected`. In non-live mode, when the md5 mapping has the
single entry `(s, w)` and `w` is a string different from the digest of the
snapshot content of `s`, `Parse` fails with exactly that `ErrWrongChecksum`. -/
theorem C2_wrong_checksum_fields
    (order : List (String × Value) → List (String × Value)) (fs : FileSystem) (l : Logger)
    (e : ExtraConfig) (nspace : String) (horder : IsRangeOrder order) :
    (∀ S A E, (Parse order fs l e nspace).err = some (.ErrWrongChecksum S A E) →
      ∃ c cs snap, mapGet e nspace = some (.obj c) ∧ mapGet c "md5" = some (.obj cs) ∧
        (Parse order fs l e nspace).cfg.SourceLoader = .once snap ∧
        mapGet cs S = some (.str E) ∧ A = md5Hex (onceLoader.Get snap S).1 ∧ A ≠ E) ∧
    (∀ c cs s w, mapGet e nspace = some (.obj c) → mapGet c "live" ≠ some (.bool true) →
      mapGet c "md5" = some (.obj cs) → mapEntries cs = [(s, .str w)] →
      w ≠ md5Hex (onceLoader.Get (preload fs l (parseOptions {} c).Sources).1 s).1 →
      (Parse order fs l e nspace).cfg.SourceLoader =
          .once (preload fs l (parseOptions {} c).Sources).1 ∧
        (Parse order fs l e nspace).err =
          some (.ErrWrongChecksum s
            (md5Hex (onceLoader.Get (preload fs l (parseOptions {} c).Sources).1 s).1) w)) := by
  constructor
  · intro S A E herr
    cases hns : mapGet e nspace with
    | none => simp [Parse_absent order fs l e nspace hns] at herr
    | some v =>
      by_cases hv : ∃ c, v = .obj c
      · obtain ⟨c, rfl⟩ := hv
        by_cases hlive : mapGet c "live" = some (.bool true)
        · simp [Parse_live order fs l e nspace c hns hlive] at herr
        · rw [Parse_once order fs l e nspace c hns hlive] at herr ⊢
          cases hm : mapGet c "md5" with
          | none => simp [hm, assertMap] at herr
          | some m =>
            by_cases hmo : ∃ cs, m = .obj cs
            · obtain ⟨cs, rfl⟩ := hmo
              simp only [hm, assertMap] at herr
              obtain ⟨k, v, hkv, hc⟩ := verify_order_eq_some order horder _ cs _ herr
              refine ⟨c, cs, _, rfl, hm, rfl, ?_⟩
              cases v with
              | str x =>
                rw [checkEntry_str] at hc
                split at hc
                · exact absurd hc (by simp)
                · next hne =>
                  simp only [Option.some.injEq, Error.ErrWrongChecksum.injEq] at hc
                  obtain ⟨rfl, rfl, rfl⟩ := hc
                  exact ⟨hkv, rfl, fun h => hne h.symm⟩
              | _ => simp [checkEntry, assertString] at hc
            · have : assertMap (some m) = none := by
                cases m with
                | obj cs => exact absurd ⟨cs, rfl⟩ hmo
                | _ => rfl
              simp [hm, this] at herr
      · have hv' : ∀ c, v ≠ .obj c := fun c h => hv ⟨c, h⟩
        simp [Parse_notMap order fs l e nspace v hns hv'] at herr
  · intro c cs s w hns hlive hmd5 hone hw
    rw [Parse_once order fs l e nspace c hns hlive]
    refine ⟨rfl, ?_⟩
    simp only [hmd5, assertMap]
    have ho : order (mapEntries cs) = [(s, .str w)] := by
      have := horder (mapEntries cs)
      rw [hone] at this ⊢
      exact List.perm_singleton.1 this
    rw [ho]
    simp [verify, checkEntry_str, hw]

/-- C2, at `s.lua` with content `print(1)` and a wrong digest in non-live mode. -/
theorem C2_witness :
    (Parse id exampleFS [] [("lua", .obj nsWrong)] "lua").err =
      some (.ErrWrongChecksum "s.lua" digestPrint1 digestWrong) := by
  have h := ((C2_wrong_checksum_fields id exampleFS [] [("lua", .obj nsWrong)] "lua"
    (fun _ => List.Perm.refl _)).2 nsWrong [("s.lua", .str digestWrong)] "s.lua" digestWrong
    rfl (by simp [nsWrong, mapGet]) rfl rfl (by
      have hc : (onceLoader.Get (preload exampleFS []
          (parseOptions {} nsWrong).Sources).1 "s.lua").1 = "print(1)" := by decide
      rw [hc, md5Hex_print1]
      decide)).2
  have hc : (onceLoader.Get (preload exampleFS []
      (parseOptions {} nsWrong).Sources).1 "s.lua").1 = "print(1)" := by decide
  rw [hc, md5Hex_print1] at h
  exact h

/-- C3 (as stated, refuted): in non-live mode the md5 mapping holds the two
non-string entries `(a.lua, 1)` and `(b.lua, 2)`; visiting them in the listed
order `Parse` fails with `ErrWrongChecksumType "a.lua"`, not with that of
`b.lua`, and visiting them in the reverse order it is the error of `a.lua`
that is not returned. -/
theorem C3_counterexample :
    mapGet [("lua", Value.obj nsTwoNumbers)] "lua" = some (.obj nsTwoNumbers) ∧
      mapGet nsTwoNumbers "live" = none ∧
      mapGet nsTwoNumbers "md5" = some (.obj [("a.lua", .num 1), ("b.lua", .num 2)]) ∧
      mapGet [("a.lua", Value.num 1), ("b.lua", Value.num 2)] "a.lua" = some (.num 1) ∧
      mapGet [("a.lua", Value.num 1), ("b.lua", Value.num 2)] "b.lua" = some (.num 2) ∧
      (Parse id emptyFS [] [("lua", .obj nsTwoNumbers)] "lua").err =
        some (.ErrWrongChecksumType "a.lua") ∧
      (Parse id emptyFS [] [("lua", .obj nsTwoNumbers)] "lua").err ≠
        some (.ErrWrongChecksumType "b.lua") ∧
      (Parse List.reverse emptyFS [] [("lua", .obj nsTwoNumbers)] "lua").err ≠
        some (.ErrWrongChecksumType "a.lua") := by
  refine ⟨rfl, rfl, rfl, rfl, rfl, by decide, by decide, by decide⟩

/-- C3 (amended): in non-live mode, for every `md5` mapping that contains an
entry `(id, v)` whose value is not a string, `Parse` fails; the error is
`ErrWrongChecksumType id` when every entry visited before `(id, v)` is the
string digest of its snapshot content, in particular when every other entry of
the mapping is. -/
theorem C3_non_string_checksum
    (order : List (String × Value) → List (String × Value)) (fs : FileSystem) (l : Logger)
    (e : ExtraConfig) (nspace : String) (c cs : GoMap Value) (id : String) (v : Value)
    (horder : IsRangeOrder order)
    (hns : mapGet e nspace = some (.obj c))
    (hlive : mapGet c "live" ≠ some (.bool true))
    (hmd5 : mapGet c "md5" = some (.obj cs))
    (hentry : mapGet cs id = some v)
    (hv : ∀ s, v ≠ .str s) :
    (∃ err, (Parse order fs l e nspace).err = some err) ∧
    (∀ pre post, order (mapEntries cs) = pre ++ (id, v) :: post →
      (∀ q ∈ pre,
        q.2 = .str (md5Hex (onceLoader.Get (preload fs l (parseOptions {} c).Sources).1 q.1).1)) →
      (Parse order fs l e nspace).err = some (.ErrWrongChecksumType id)) ∧
    ((∀ k w, mapGet cs k = some w → k ≠ id →
        w = .str (md5Hex (onceLoader.Get (preload fs l (parseOptions {} c).Sources).1 k).1)) →
      (Parse order fs l e nspace).err = some (.ErrWrongChecksumType id)) := by
  rw [Parse_once order fs l e nspace c hns hlive]
  simp only [hmd5, assertMap]
  have hfail : checkEntry (preload fs l (parseOptions {} c).Sources).1 id v =
      some (.ErrWrongChecksumType id) := checkEntry_notString _ id v hv
  have hsome : ∃ err, verify (preload fs l (parseOptions {} c).Sources).1
      (order (mapEntries cs)) = some err := by
    cases h : verify (preload fs l (parseOptions {} c).Sources).1 (order (mapEntries cs)) with
    | some err => exact ⟨err, rfl⟩
    | none =>
      have := (verify_order_eq_none_iff order horder _ cs).1 h id v hentry
      rw [hfail] at this
      exact absurd this (by simp)
  refine ⟨hsome, ?_, ?_⟩
  · intro pre post hsplit hpre
    rw [hsplit, verify_append_cons _ pre post (id, v)
      (fun q hq => (checkEntry_eq_none_iff _ q.1 q.2).2 (hpre q hq))]
    simp only [hfail]
  · intro hothers
    obtain ⟨err, herr⟩ := hsome
    obtain ⟨k, w, hkw, hc⟩ := verify_order_eq_some order horder _ cs err herr
    by_cases hk : k = id
    · subst hk
      rw [hentry] at hkw
      injection hkw with hkw
      subst hkw
      rw [herr, ← hc, hfail]
    · have := (checkEntry_eq_none_iff _ k w).2 (hothers k w hkw hk)
      rw [this] at hc
      exact absurd hc (by simp)

/-- C3, at an md5 mapping whose entry for `s.lua` is a number and whose other
entry is correct, visited in reverse order. -/
theorem C3_witness :
    (Parse List.reverse exampleFS [] [("lua", .obj nsOneNumber)] "lua").err =
      some (.ErrWrongChecksumType "s.lua") :=
  (C3_non_string_checksum List.reverse exampleFS [] [("lua", .obj nsOneNumber)] "lua"
    nsOneNumber [("s.lua", .num 7), ("a.lua", .str "9dd4e461268c8034f5c8564e155c67a6")]
    "s.lua" (.num 7) (fun _ => List.reverse_perm _) rfl (by simp [nsOneNumber, mapGet]) rfl rfl
    (by intro s h; cases h)).2.2 (by
      intro k w hkw hk
      have hk' : k = "a.lua" ∧ w = .str "9dd4e461268c8034f5c8564e155c67a6" := by
        by_cases h1 : "s.lua" = k
        · exact absurd h1.symm hk
        · by_cases h2 : "a.lua" = k
          · simp [mapGet, h1, h2] at hkw
            exact ⟨h2.symm, hkw.symm⟩
          · simp [mapGet, h1, h2] at hkw
      obtain ⟨rfl, rfl⟩ := hk'
      have hc : (onceLoader.Get (preload exampleFS []
          (parseOptions {} nsOneNumber).Sources).1 "a.lua").1 = "x" := by decide
      rw [hc, md5Hex_x])

/-- C4: in non-live mode with no `md5` option, `Parse` returns no error whatever
reads fail, and the returned snapshot loader's `Get id` is `(content, true)`
exactly when `id` is one of the resolved `Sources` and reading `id` at parse
time gave `content`, and `("", false)` otherwise, whatever the file system
`fs'` is when `Get` is called. -/
theorem C4_snapshot_get
    (order : List (String × Value) → List (String × Value)) (fs : FileSystem) (l : Logger)
    (e : ExtraConfig) (nspace : String) (c : GoMap Value)
    (hns : mapGet e nspace = some (.obj c))
    (hlive : mapGet c "live" ≠ some (.bool true))
    (hmd5 : mapGet c "md5" = none) :
    (Parse order fs l e nspace).err = none ∧
    (∃ snap, (Parse order fs l e nspace).cfg.SourceLoader = .once snap) ∧
    ∀ (fs' : FileSystem) (id : String),
      (∀ content, (Parse order fs l e nspace).cfg.Get fs' id = some (content, true) ↔
        (id ∈ (Parse order fs l e nspace).cfg.Sources ∧ fs id = .ok content)) ∧
      ((¬ ∃ content, id ∈ (Parse order fs l e nspace).cfg.Sources ∧ fs id = .ok content) →
        (Parse order fs l e nspace).cfg.Get fs' id = some ("", false)) := by
  rw [Parse_once order fs l e nspace c hns hlive]
  refine ⟨by simp [hmd5, assertMap], ⟨_, rfl⟩, ?_⟩
  intro fs' id
  simp only [Config.Get, SourceLoader.Get, onceLoader.Get, preload_get]
  by_cases hmem : id ∈ (parseOptions {} c).Sources
  · cases hfs : fs id with
    | ok b => simp [hmem, eq_comm]
    | error msg => simp [hmem]
  · simp [hmem]

/-- C4, at sources `a.lua` (content `x`) and `b.lua` (missing). -/
theorem C4_witness :
    (Parse id exampleFS [] [("lua", .obj nsTwoSources)] "lua").err = none ∧
      (Parse id exampleFS [] [("lua", .obj nsTwoSources)] "lua").cfg.Get emptyFS "a.lua" =
        some ("x", true) ∧
      (Parse id exampleFS [] [("lua", .obj nsTwoSources)] "lua").cfg.Get emptyFS "b.lua" =
        some ("", false) := by
  have h := C4_snapshot_get id exampleFS [] [("lua", .obj nsTwoSources)] "lua" nsTwoSources
    rfl (by simp [nsTwoSources, mapGet]) rfl
  refine ⟨h.1, ((h.2.2 emptyFS "a.lua").1 "x").2 ⟨by decide, rfl⟩, (h.2.2 emptyFS "b.lua").2 ?_⟩
  rintro ⟨content, -, hread⟩
  simp [exampleFS] at hread

/-- C5: when the `live` option is the boolean true, `Parse` returns no error and
the live loader; its whole outcome is the same for every file system and order
of visit, and for every namespace mapping that differs only in its `md5`
option, so the checksums are never looked at. -/
theorem C5_live_skips_verification
    (order : List (String × Value) → List (String × Value)) (fs : FileSystem) (l : Logger)
    (e : ExtraConfig) (nspace : String) (c : GoMap Value)
    (hns : mapGet e nspace = some (.obj c))
    (hlive : mapGet c "live" = some (.bool true)) :
    (Parse order fs l e nspace).err = none ∧
    (Parse order fs l e nspace).cfg.SourceLoader = .live ∧
    (∀ order' fs', Parse order' fs' l e nspace = Parse order fs l e nspace) ∧
    (∀ e' c', mapGet e' nspace = some (.obj c') →
      (∀ k, k ≠ "md5" → mapGet c' k = mapGet c k) →
      Parse order fs l e' nspace = Parse order fs l e nspace) := by
  refine ⟨?_, ?_, ?_, ?_⟩
  · rw [Parse_live order fs l e nspace c hns hlive]
  · rw [Parse_live order fs l e nspace c hns hlive]
  · intro order' fs'
    rw [Parse_live order fs l e nspace c hns hlive, Parse_live order' fs' l e nspace c hns hlive]
  · intro e' c' hns' hsame
    have hlive' : mapGet c' "live" = some (.bool true) := by
      rw [hsame "live" (by decide), hlive]
    rw [Parse_live order fs l e nspace c hns hlive, Parse_live order fs l e' nspace c' hns' hlive',
      parseOptions_congr_of_eq {} c c' (hsame _ (by decide)) (hsame _ (by decide))
        (hsame _ (by decide)) (hsame _ (by decide)) (hsame _ (by decide))]

/-- C5, at a live namespace whose md5 mapping holds a number. -/
theorem C5_witness :
    (Parse id emptyFS [] [("lua", .obj nsLive)] "lua").err = none ∧
      (Parse id emptyFS [] [("lua", .obj nsLive)] "lua").cfg.SourceLoader = .live :=
  have h := C5_live_skips_verification id emptyFS [] [("lua", .obj nsLive)] "lua" nsLive rfl rfl
  ⟨h.1, h.2.1⟩

/-- C6: for every extra-configuration mapping and every namespace that is not a
key of it, `Parse` returns `ErrNoExtraConfig` with the empty configuration (no
sources, empty pre and post code, both flags false, no loader), whatever the
file system contains; nothing is logged. -/
theorem C6_no_extra_config
    (order : List (String × Value) → List (String × Value)) (fs : FileSystem) (l : Logger)
    (e : ExtraConfig) (nspace : String)
    (hns : mapGet e nspace = none) :
    Parse order fs l e nspace =
      ⟨{ Sources := [], PreCode := "", PostCode := "", SkipNext := false,
         AllowOpenLibs := false, SourceLoader := .nil },
        some .ErrNoExtraConfig, l⟩ :=
  Parse_absent order fs l e nspace hns

/-- C6, at a mapping that has the key `lua` only, asked for `other`. -/
theorem C6_witness :
    (Parse id exampleFS [] [("lua", .obj nsGood)] "other").err = some .ErrNoExtraConfig :=
  congrArg Outcome.err (C6_no_extra_config id exampleFS [] [("lua", .obj nsGood)] "other" rfl)

/-- C7: when the namespace key is present but its value is not a string-keyed
mapping (a string, number, boolean, list or null), `Parse` returns
`ErrWrongExtraConfig`, with the empty configuration. -/
theorem C7_wrong_extra_config
    (order : List (String × Value) → List (String × Value)) (fs : FileSystem) (l : Logger)
    (e : ExtraConfig) (nspace : String) (v : Value)
    (hns : mapGet e nspace = some v)
    (hv : ∀ c, v ≠ .obj c) :
    (Parse order fs l e nspace).err = some .ErrWrongExtraConfig ∧
      (Parse order fs l e nspace).cfg = {} := by
  rw [Parse_notMap order fs l e nspace v hns hv]
  exact ⟨rfl, rfl⟩

/-- C7, at a namespace whose value is a list. -/
theorem C7_witness :
    (Parse id exampleFS [] [("lua", .list [.str "s.lua"])] "lua").err =
      some .ErrWrongExtraConfig :=
  (C7_wrong_extra_config id exampleFS [] [("lua", .list [.str "s.lua"])] "lua"
    (.list [.str "s.lua"]) rfl (by intro c h; cases h)).1

/-- C8: for every `sources` option that is a sequence, the resolved `Sources`
list is exactly the subsequence of its string elements, in their order and with
duplicates kept; the non-string elements have no effect on `Parse`: a namespace
mapping whose `sources` has the same string elements and whose other options
are the same gives the same configuration, the same error and the same log. -/
theorem C8_sources_string_subsequence
    (order : List (String × Value) → List (String × Value)) (fs : FileSystem) (l : Logger)
    (e : ExtraConfig) (nspace : String) (c : GoMap Value) (xs : List Value)
    (hns : mapGet e nspace = some (.obj c))
    (hsrc : mapGet c "sources" = some (.list xs)) :
    (Parse order fs l e nspace).cfg.Sources = xs.filterMap (fun v => assertString (some v)) ∧
    (∀ e' c' xs', mapGet e' nspace = some (.obj c') →
      mapGet c' "sources" = some (.list xs') →
      xs'.filterMap (fun v => assertString (some v)) =
        xs.filterMap (fun v => assertString (some v)) →
      (∀ k, k ≠ "sources" → mapGet c' k = mapGet c k) →
      Parse order fs l e' nspace = Parse order fs l e nspace) := by
  constructor
  · by_cases hlive : mapGet c "live" = some (.bool true)
    · rw [Parse_live order fs l e nspace c hns hlive]
      exact (parseOptions_sources {} c xs hsrc).trans (collectSources_eq xs)
    · rw [Parse_once order fs l e nspace c hns hlive]
      exact (parseOptions_sources {} c xs hsrc).trans (collectSources_eq xs)
  · intro e' c' xs' hns' hsrc' hsame hother
    have hopt : parseOptions {} c' = parseOptions {} c :=
      parseOptions_congr {} c c' (hother _ (by decide)) (hother _ (by decide))
        (hother _ (by decide)) (hother _ (by decide))
        (Or.inr ⟨xs, xs', by rw [hsrc']; rfl, by rw [hsrc]; rfl, by
          rw [collectSources_eq, collectSources_eq, hsame]⟩)
    have hl : mapGet c' "live" = mapGet c "live" := hother _ (by decide)
    have hm : mapGet c' "md5" = mapGet c "md5" := hother _ (by decide)
    by_cases hlive : mapGet c "live" = some (.bool true)
    · rw [Parse_live order fs l e nspace c hns hlive,
        Parse_live order fs l e' nspace c' hns' (hl.trans hlive), hopt]
    · rw [Parse_once order fs l e nspace c hns hlive,
        Parse_once order fs l e' nspace c' hns' (by rw [hl]; exact hlive), hopt, hm]

/-- C8, at a `sources` sequence holding a number, a boolean and a duplicate. -/
theorem C8_witness :
    (Parse id exampleFS [] [("lua", .obj nsMixedSources)] "lua").cfg.Sources =
        ["b.lua", "a.lua", "b.lua"] ∧
      Parse id exampleFS [] [("lua", .obj nsStringSources)] "lua" =
        Parse id exampleFS [] [("lua", .obj nsMixedSources)] "lua" :=
  have h := C8_sources_string_subsequence id exampleFS [] [("lua", .obj nsMixedSources)] "lua"
    nsMixedSources [.str "b.lua", .num 3, .str "a.lua", .bool true, .str "b.lua"] rfl rfl
  ⟨h.1, h.2 [("lua", .obj nsStringSources)] nsStringSources
    [.str "b.lua", .str "a.lua", .str "b.lua"] rfl rfl rfl (by
      intro k hk
      have hk' : ¬ "sources" = k := fun h => hk h.symm
      simp [nsStringSources, nsMixedSources, mapGet, hk'])⟩

/-- C9: in non-live mode, for an `md5` entry `(id, expected)` whose identifier has
no content in the snapshot loader (it was not declared in `sources`, or its read
failed), the loader answers `("", false)` and the digest is that of the empty
string: the entry passes exactly when `expected` is
`d41d8cd98f00b204e9800998ecf8427e`, and otherwise fails with `ErrWrongChecksum`
whose `Actual` is that digest; when the other entries pass, this is the result
of `Parse`, and `Parse` never returns `ErrUnknownSource`. -/
theorem C9_missing_content_hashed_as_empty
    (order : List (String × Value) → List (String × Value)) (fs : FileSystem) (l : Logger)
    (e : ExtraConfig) (nspace : String) (c cs : GoMap Value) (id expected : String)
    (horder : IsRangeOrder order)
    (hns : mapGet e nspace = some (.obj c))
    (hlive : mapGet c "live" ≠ some (.bool true))
    (hmd5 : mapGet c "md5" = some (.obj cs))
    (hentry : mapGet cs id = some (.str expected))
    (hmiss : id ∉ (Parse order fs l e nspace).cfg.Sources ∨ ∃ msg, fs id = .error msg) :
    ∃ snap, (Parse order fs l e nspace).cfg.SourceLoader = .once snap ∧
      onceLoader.Get snap id = ("", false) ∧
      md5Hex "" = "d41d8cd98f00b204e9800998ecf8427e" ∧
      (checkEntry snap id (.str expected) = none ↔ expected = md5Hex "") ∧
      (expected ≠ md5Hex "" →
        checkEntry snap id (.str expected) =
          some (.ErrWrongChecksum id (md5Hex "") expected)) ∧
      ((∀ k w, mapGet cs k = some w → k ≠ id → checkEntry snap k w = none) →
        (Parse order fs l e nspace).err =
          if expected = md5Hex "" then none
          else some (.ErrWrongChecksum id (md5Hex "") expected)) ∧
      (∀ s, (Parse order fs l e nspace).err ≠ some (.ErrUnknownSource s)) := by
  rw [Parse_once order fs l e nspace c hns hlive] at hmiss ⊢
  simp only [hmd5, assertMap] at hmiss ⊢
  have hget : onceLoader.Get (preload fs l (parseOptions {} c).Sources).1 id = ("", false) := by
    simp only [onceLoader.Get, preload_get]
    rcases hmiss with h | ⟨msg, h⟩
    · simp [h]
    · simp [h]
  have hck : checkEntry (preload fs l (parseOptions {} c).Sources).1 id (.str expected) =
      if expected = md5Hex "" then none
      else some (.ErrWrongChecksum id (md5Hex "") expected) := by
    rw [checkEntry_str, hget]
  refine ⟨_, rfl, hget, md5Hex_empty, ?_, ?_, ?_, ?_⟩
  · rw [hck]
    by_cases h : expected = md5Hex "" <;> simp [h]
  · intro h
    rw [hck, if_neg h]
  · intro hothers
    rw [← hck]
    cases hv : verify (preload fs l (parseOptions {} c).Sources).1 (order (mapEntries cs)) with
    | none =>
      exact ((verify_order_eq_none_iff order horder _ cs).1 hv id _ hentry).symm
    | some err =>
      obtain ⟨k, w, hkw, hc⟩ := verify_order_eq_some order horder _ cs err hv
      by_cases hk : k = id
      · subst hk
        rw [hentry] at hkw
        injection hkw with hkw
        subst hkw
        exact hc.symm
      · rw [hothers k w hkw hk] at hc
        exact absurd hc (by simp)
  · intro s
    exact verify_ne_unknownSource _ _ s

/-- C9, at an md5 entry for the missing file `b.lua` that carries the digest of
the empty string: parsing succeeds. -/
theorem C9_witness :
    (Parse id emptyFS [] [("lua", .obj nsMissingEmptyDigest)] "lua").err = none := by
  obtain ⟨snap, -, -, hd, -, -, hparse, -⟩ :=
    C9_missing_content_hashed_as_empty id emptyFS [] [("lua", .obj nsMissingEmptyDigest)] "lua"
      nsMissingEmptyDigest [("b.lua", .str "d41d8cd98f00b204e9800998ecf8427e")] "b.lua"
      "d41d8cd98f00b204e9800998ecf8427e" (fun _ => List.Perm.refl _) rfl
      (by simp [nsMissingEmptyDigest, mapGet]) rfl rfl (Or.inr ⟨_, rfl⟩)
  rw [hparse, if_pos hd.symm]
  intro k w hkw hk
  have hk' : ¬ "b.lua" = k := fun h => hk h.symm
  simp [mapGet, hk'] at hkw

/-- C10: in non-live mode, when the `md5` option is absent or is not a
string-keyed mapping, `Parse` returns no error and the populated configuration
whose loader is the snapshot built from the declared sources. -/
theorem C10_md5_absent_or_wrong_type
    (order : List (String × Value) → List (String × Value)) (fs : FileSystem) (l : Logger)
    (e : ExtraConfig) (nspace : String) (c : GoMap Value)
    (hns : mapGet e nspace = some (.obj c))
    (hlive : mapGet c "live" ≠ some (.bool true))
    (hmd5 : ∀ cs, mapGet c "md5" ≠ some (.obj cs)) :
    (Parse order fs l e nspace).err = none ∧
      (Parse order fs l e nspace).cfg.SourceLoader =
        .once (preload fs l (Parse order fs l e nspace).cfg.Sources).1 ∧
      (Parse order fs l e nspace).cfg =
        { parseOptions {} c with
          SourceLoader := .once (preload fs l (parseOptions {} c).Sources).1 } := by
  rw [Parse_once order fs l e nspace c hns hlive, assertMap_eq_none _ hmd5]
  exact ⟨rfl, rfl, rfl⟩

/-- C10, at an `md5` option that is a string. -/
theorem C10_witness :
    (Parse id exampleFS [] [("lua", .obj nsMd5String)] "lua").err = none ∧
      (Parse id exampleFS [] [("lua", .obj nsMd5String)] "lua").cfg.SourceLoader =
        .once [("a.lua", "x")] := by
  have h := C10_md5_absent_or_wrong_type id exampleFS [] [("lua", .obj nsMd5String)] "lua"
    nsMd5String rfl (by simp [nsMd5String, mapGet]) (by
      intro cs h
      simp [nsMd5String, mapGet] at h)
  refine ⟨h.1, h.2.1.trans ?_⟩
  decide

/-! ## Further lemmas on `parseOptions`, `preload` and the digest -/

theorem parseOptions_eq (c : GoMap Value) :
    parseOptions {} c =
      { Sources := (match assertSlice (mapGet c "sources") with
          | some sources => collectSources sources
          | none => []),
        PreCode := (assertString (mapGet c "pre")).getD "",
        PostCode := (assertString (mapGet c "post")).getD "",
        SkipNext := (assertBool (mapGet c "skip_next") == some true),
        AllowOpenLibs := (assertBool (mapGet c "allow_open_libs") == some true),
        SourceLoader := .nil } := by
  unfold parseOptions
  cases assertString (mapGet c "pre") <;> cases assertString (mapGet c "post") <;>
    rcases assertBool (mapGet c "skip_next") with _ | _ | _ <;>
    rcases assertBool (mapGet c "allow_open_libs") with _ | _ | _ <;>
    cases assertSlice (mapGet c "sources") <;> rfl

theorem Parse_cfg (order : List (String × Value) → List (String × Value)) (fs : FileSystem)
    (l : Logger) (e : ExtraConfig) (nspace : String) (c : GoMap Value)
    (hns : mapGet e nspace = some (.obj c)) :
    (Parse order fs l e nspace).cfg =
      { parseOptions {} c with SourceLoader := (Parse order fs l e nspace).cfg.SourceLoader } := by
  by_cases hlive : mapGet c "live" = some (.bool true)
  · rw [Parse_live order fs l e nspace c hns hlive]
  · rw [Parse_once order fs l e nspace c hns hlive]

theorem Parse_rest_congr (order : List (String × Value) → List (String × Value))
    (fs : FileSystem) (l : Logger) (e e' : ExtraConfig) (nspace : String) (c c' : GoMap Value)
    (hns : mapGet e nspace = some (.obj c)) (hns' : mapGet e' nspace = some (.obj c'))
    (hsrc : (parseOptions {} c').Sources = (parseOptions {} c).Sources)
    (hl : mapGet c' "live" = mapGet c "live") (hm : mapGet c' "md5" = mapGet c "md5") :
    (Parse order fs l e' nspace).err = (Parse order fs l e nspace).err ∧
      (Parse order fs l e' nspace).log = (Parse order fs l e nspace).log ∧
      (Parse order fs l e' nspace).cfg.SourceLoader =
        (Parse order fs l e nspace).cfg.SourceLoader ∧
      (Parse order fs l e' nspace).cfg.Sources = (Parse order fs l e nspace).cfg.Sources := by
  by_cases hlive : mapGet c "live" = some (.bool true)
  · rw [Parse_live order fs l e nspace c hns hlive,
      Parse_live order fs l e' nspace c' hns' (hl.trans hlive)]
    exact ⟨rfl, rfl, rfl, hsrc⟩
  · rw [Parse_once order fs l e nspace c hns hlive,
      Parse_once order fs l e' nspace c' hns' (by rw [hl]; exact hlive)]
    rw [hsrc, hm]
    exact ⟨rfl, rfl, rfl, rfl⟩

theorem preload_fold_fst (fs : FileSystem) (srcs : List String) (m : onceLoader)
    (l l' : Logger) :
    (srcs.foldl (preloadStep fs) (m, l)).1 = (srcs.foldl (preloadStep fs) (m, l')).1 := by
  induction srcs generalizing m l l' with
  | nil => rfl
  | cons a rest ih =>
    simp only [List.foldl_cons, preloadStep]
    cases fs a with
    | error err => exact ih m _ _
    | ok b => exact ih _ _ _

theorem preload_fst_indep (fs : FileSystem) (l l' : Logger) (srcs : List String) :
    (preload fs l srcs).1 = (preload fs l' srcs).1 :=
  preload_fold_fst fs srcs [] l l'

theorem preload_fold_log (fs : FileSystem) (srcs : List String) (m : onceLoader) (l : Logger) :
    (srcs.foldl (preloadStep fs) (m, l)).2 =
      l ++ srcs.filterMap (fun source =>
        match fs source with
        | .error err => some ⟨["lua:", err]⟩
        | .ok _ => none) := by
  induction srcs generalizing m l with
  | nil => simp
  | cons a rest ih =>
    simp only [List.foldl_cons, preloadStep]
    cases h : fs a with
    | error err => simp [ih, Logger.Error, List.filterMap_cons, h]
    | ok b => simp [ih, List.filterMap_cons, h]

theorem verify_error_kind (loader : onceLoader) (xs : List (String × Value)) (err : Error)
    (h : verify loader xs = some err) :
    (∃ k, err = .ErrWrongChecksumType k) ∨ ∃ k a x, err = .ErrWrongChecksum k a x := by
  obtain ⟨pre, p, post, -, hp, -⟩ := verify_eq_some loader xs _ h
  obtain ⟨k, v⟩ := p
  cases v with
  | str x =>
    rw [checkEntry_str] at hp
    split at hp
    · simp at hp
    · simp only [Option.some.injEq] at hp
      exact Or.inr ⟨_, _, _, hp.symm⟩
  | _ =>
    simp only [checkEntry, assertString, Option.some.injEq] at hp
    exact Or.inl ⟨_, hp.symm⟩

theorem Parse_err_of_entry (order : List (String × Value) → List (String × Value))
    (fs : FileSystem) (l : Logger) (e : ExtraConfig) (nspace : String) (c cs : GoMap Value)
    (k : String) (v : Value) (horder : IsRangeOrder order)
    (hns : mapGet e nspace = some (.obj c))
    (hlive : mapGet c "live" ≠ some (.bool true))
    (hmd5 : mapGet c "md5" = some (.obj cs))
    (hentry : mapGet cs k = some v)
    (hothers : ∀ k' w, mapGet cs k' = some w → k' ≠ k →
      checkEntry (preload fs l (parseOptions {} c).Sources).1 k' w = none) :
    (Parse order fs l e nspace).err =
      checkEntry (preload fs l (parseOptions {} c).Sources).1 k v := by
  rw [Parse_once order fs l e nspace c hns hlive]
  simp only [hmd5, assertMap]
  cases hv : verify (preload fs l (parseOptions {} c).Sources).1 (order (mapEntries cs)) with
  | none => exact ((verify_order_eq_none_iff order horder _ cs).1 hv k v hentry).symm
  | some err =>
    obtain ⟨k', w, hkw, hc⟩ := verify_order_eq_some order horder _ cs err hv
    by_cases hk : k' = k
    · subst hk
      rw [hentry] at hkw
      injection hkw with hkw
      subst hkw
      exact hc.symm
    · rw [hothers k' w hkw hk] at hc
      exact absurd hc (by simp)

theorem beq_some_true_iff (x : Option Value) :
    (assertBool x == some true) = true ↔ x = some (.bool true) := by
  rw [beq_iff_eq, assertBool_eq_true_iff]

theorem assertString_getD (x : Option Value) :
    (assertString x).getD "" =
      match x with
      | some (.str s) => s
      | _ => "" := by
  cases x with
  | none => rfl
  | some v => cases v <;> rfl

theorem parseOptions_sources_congr (c c' : GoMap Value)
    (h : mapGet c' "sources" = mapGet c "sources") :
    (parseOptions {} c').Sources = (parseOptions {} c).Sources := by
  rw [parseOptions_eq, parseOptions_eq, h]

/-! ## Claims, continued -/

/-- C11: for every namespace mapping, `SkipNext` is true if and only if the
`skip_next` option is the boolean true, and `AllowOpenLibs` is true if and only
if `allow_open_libs` is the boolean true; an absent option, false and a value
of another type leave the flag false. The two options cause no error: the
error `Parse` returns is the same for every value they take. -/
theorem C11_flags_only_literal_true
    (order : List (String × Value) → List (String × Value)) (fs : FileSystem) (l : Logger)
    (e : ExtraConfig) (nspace : String) (c : GoMap Value)
    (hns : mapGet e nspace = some (.obj c)) :
    ((Parse order fs l e nspace).cfg.SkipNext = true ↔
        mapGet c "skip_next" = some (.bool true)) ∧
      ((Parse order fs l e nspace).cfg.AllowOpenLibs = true ↔
        mapGet c "allow_open_libs" = some (.bool true)) ∧
      (∀ e' c', mapGet e' nspace = some (.obj c') →
        (∀ k, k ≠ "skip_next" → k ≠ "allow_open_libs" → mapGet c' k = mapGet c k) →
        (Parse order fs l e' nspace).err = (Parse order fs l e nspace).err) := by
  refine ⟨?_, ?_, ?_⟩
  · rw [Parse_cfg order fs l e nspace c hns, parseOptions_eq]
    exact beq_some_true_iff _
  · rw [Parse_cfg order fs l e nspace c hns, parseOptions_eq]
    exact beq_some_true_iff _
  · intro e' c' hns' hsame
    exact (Parse_rest_congr order fs l e e' nspace c c' hns hns'
      (parseOptions_sources_congr c c' (hsame _ (by decide) (by decide)))
      (hsame _ (by decide) (by decide)) (hsame _ (by decide) (by decide))).1

/-- C11, at `skip_next` the string `true` and `allow_open_libs` the boolean true. -/
theorem C11_witness :
    (Parse id exampleFS [] [("lua", .obj nsFlags)] "lua").cfg.SkipNext = false ∧
      (Parse id exampleFS [] [("lua", .obj nsFlags)] "lua").cfg.AllowOpenLibs = true ∧
      (Parse id exampleFS [] [("lua", .obj nsFlagsOther)] "lua").err =
        (Parse id exampleFS [] [("lua", .obj nsFlags)] "lua").err := by
  have h := C11_flags_only_literal_true id exampleFS [] [("lua", .obj nsFlags)] "lua" nsFlags rfl
  refine ⟨?_, h.2.1.2 rfl, h.2.2 [("lua", .obj nsFlagsOther)] nsFlagsOther rfl ?_⟩
  · cases hs : (Parse id exampleFS [] [("lua", .obj nsFlags)] "lua").cfg.SkipNext with
    | false => rfl
    | true =>
      have := h.1.1 hs
      simp [nsFlags, mapGet] at this
  · intro k h1 h2
    have h1' : ¬ "skip_next" = k := fun h => h1 h.symm
    have h2' : ¬ "allow_open_libs" = k := fun h => h2 h.symm
    simp [nsFlags, nsFlagsOther, mapGet, h1', h2']

/-- C16: for every namespace mapping, `PreCode` is the `pre` option when it is
a string and the empty string otherwise, and likewise `PostCode` for `post`;
the two options cause no error (the error is the same for every value they
take), and each value is the same for every namespace mapping with the same
`pre`, respectively `post`, whatever its `sources` and other options. -/
theorem C16_pre_post_code
    (order : List (String × Value) → List (String × Value)) (fs : FileSystem) (l : Logger)
    (e : ExtraConfig) (nspace : String) (c : GoMap Value)
    (hns : mapGet e nspace = some (.obj c)) :
    (Parse order fs l e nspace).cfg.PreCode =
        (match mapGet c "pre" with
          | some (.str pre) => pre
          | _ => "") ∧
      (Parse order fs l e nspace).cfg.PostCode =
        (match mapGet c "post" with
          | some (.str post) => post
          | _ => "") ∧
      (∀ e' c', mapGet e' nspace = some (.obj c') →
        (∀ k, k ≠ "pre" → k ≠ "post" → mapGet c' k = mapGet c k) →
        (Parse order fs l e' nspace).err = (Parse order fs l e nspace).err) ∧
      (∀ order' fs' l' e' c', mapGet e' nspace = some (.obj c') →
        mapGet c' "pre" = mapGet c "pre" →
        (Parse order' fs' l' e' nspace).cfg.PreCode = (Parse order fs l e nspace).cfg.PreCode) ∧
      (∀ order' fs' l' e' c', mapGet e' nspace = some (.obj c') →
        mapGet c' "post" = mapGet c "post" →
        (Parse order' fs' l' e' nspace).cfg.PostCode =
          (Parse order fs l e nspace).cfg.PostCode) := by
  have hpre : ∀ order fs l e c, mapGet e nspace = some (.obj c) →
      (Parse order fs l e nspace).cfg.PreCode = (assertString (mapGet c "pre")).getD "" := by
    intro order fs l e c h
    rw [Parse_cfg order fs l e nspace c h, parseOptions_eq]
  have hpost : ∀ order fs l e c, mapGet e nspace = some (.obj c) →
      (Parse order fs l e nspace).cfg.PostCode = (assertString (mapGet c "post")).getD "" := by
    intro order fs l e c h
    rw [Parse_cfg order fs l e nspace c h, parseOptions_eq]
  refine ⟨?_, ?_, ?_, ?_, ?_⟩
  · rw [hpre order fs l e c hns, assertString_getD]
  · rw [hpost order fs l e c hns, assertString_getD]
  · intro e' c' hns' hsame
    exact (Parse_rest_congr order fs l e e' nspace c c' hns hns'
      (parseOptions_sources_congr c c' (hsame _ (by decide) (by decide)))
      (hsame _ (by decide) (by decide)) (hsame _ (by decide) (by decide))).1
  · intro order' fs' l' e' c' hns' hsame
    rw [hpre order' fs' l' e' c' hns', hpre order fs l e c hns, hsame]
  · intro order' fs' l' e' c' hns' hsame
    rw [hpost order' fs' l' e' c' hns', hpost order fs l e c hns, hsame]

/-- C16, at `pre` a string and `post` a number, against a mapping with other sources. -/
theorem C16_witness :
    (Parse id exampleFS [] [("lua", .obj nsFlags)] "lua").cfg.PreCode = "print(0)" ∧
      (Parse id exampleFS [] [("lua", .obj nsFlags)] "lua").cfg.PostCode = "" ∧
      (Parse List.reverse emptyFS [] [("lua", .obj nsPreOnly)] "lua").cfg.PreCode =
        (Parse id exampleFS [] [("lua", .obj nsFlags)] "lua").cfg.PreCode :=
  have h := C16_pre_post_code id exampleFS [] [("lua", .obj nsFlags)] "lua" nsFlags rfl
  ⟨h.1, h.2.1, h.2.2.2.1 List.reverse emptyFS [] [("lua", .obj nsPreOnly)] nsPreOnly rfl rfl⟩

theorem leBytes_length (n x : Nat) : (MD5.leBytes n x).length = n := by
  induction n generalizing x with
  | zero => rfl
  | succ n ih => simp [MD5.leBytes, ih]

theorem sum_length (msg : List Nat) : (MD5.sum msg).length = 16 := by
  simp [MD5.sum, leBytes_length]

theorem hexEncodeToString_length (bs : List Nat) :
    (hexEncodeToString bs).length = 2 * bs.length := by
  unfold hexEncodeToString
  rw [String.length_mk]
  induction bs with
  | nil => rfl
  | cons b rest ih =>
    simp only [List.map_cons, List.flatten_cons, List.length_append, ih, List.length_cons,
      List.length_nil]
    omega

theorem hextable_getD_mem : ∀ i, i < 16 → hextable.getD i '0' ∈ hextable := by
  decide

theorem hextable_not_upper : ∀ ch ∈ hextable, ch.isUpper = false := by
  decide

theorem hexEncodeToString_chars (bs : List Nat) :
    ∀ ch ∈ (hexEncodeToString bs).data, ch ∈ hextable := by
  unfold hexEncodeToString
  induction bs with
  | nil => simp
  | cons b rest ih =>
    intro ch hch
    simp only [List.map_cons, List.flatten_cons, List.mem_append, List.mem_cons,
      List.mem_singleton, List.not_mem_nil, or_false] at hch
    rcases hch with (rfl | rfl) | hch
    · exact hextable_getD_mem _ (Nat.mod_lt _ (by decide))
    · exact hextable_getD_mem _ (Nat.mod_lt _ (by decide))
    · exact ih ch hch

theorem md5Hex_length (content : String) : (md5Hex content).length = 32 := by
  unfold md5Hex
  rw [hexEncodeToString_length, List.length_take, sum_length]
  rfl

theorem md5Hex_chars (content : String) : ∀ ch ∈ (md5Hex content).data, ch ∈ hextable :=
  hexEncodeToString_chars _

theorem string_length_pos_of_ne_empty (s : String) (h : s ≠ "") : 0 < s.length := by
  rcases s with ⟨cs⟩
  cases cs with
  | nil => exact absurd rfl h
  | cons a rest => simp [String.length]

theorem Parse_once_loader (order : List (String × Value) → List (String × Value))
    (fs : FileSystem) (l : Logger) (e : ExtraConfig) (nspace : String) (c : GoMap Value)
    (snap : onceLoader) (hns : mapGet e nspace = some (.obj c))
    (hlive : mapGet c "live" ≠ some (.bool true))
    (hsnap : (Parse order fs l e nspace).cfg.SourceLoader = .once snap) :
    snap = (preload fs l (parseOptions {} c).Sources).1 := by
  rw [Parse_once order fs l e nspace c hns hlive] at hsnap
  injection hsnap with h
  exact h.symm

/-- C12: the digest `actual` compared against an `md5` entry `(k, expected)` is
the hex rendering of the 16 bytes of the MD5 sum of the snapshot content: it has
exactly 32 characters, each in 0-9 or a-f. The comparison is string equality:
the entry passes only when `expected = actual`; otherwise it is rejected with
`ErrWrongChecksum k actual expected`, `Parse` fails, and with that very error
when the other entries pass. An `expected` holding an uppercase letter, or the
digest with characters added before or after it, is rejected in that way. -/
theorem C12_digest_is_32_lowercase_hex_strict
    (order : List (String × Value) → List (String × Value)) (fs : FileSystem) (l : Logger)
    (e : ExtraConfig) (nspace : String) (c cs : GoMap Value) (snap : onceLoader)
    (k expected actual : String)
    (horder : IsRangeOrder order)
    (hns : mapGet e nspace = some (.obj c))
    (hlive : mapGet c "live" ≠ some (.bool true))
    (hmd5 : mapGet c "md5" = some (.obj cs))
    (hentry : mapGet cs k = some (.str expected))
    (hsnap : (Parse order fs l e nspace).cfg.SourceLoader = .once snap)
    (hactual : actual = md5Hex (onceLoader.Get snap k).1) :
    (MD5.sum (stringBytes (onceLoader.Get snap k).1)).length = 16 ∧
      actual.length = 32 ∧
      (∀ ch ∈ actual.data, ch ∈ "0123456789abcdef".data) ∧
      (checkEntry snap k (.str expected) = none ↔ expected = actual) ∧
      (expected ≠ actual →
        checkEntry snap k (.str expected) = some (.ErrWrongChecksum k actual expected) ∧
        (∃ err, (Parse order fs l e nspace).err = some err) ∧
        ((∀ k' w, mapGet cs k' = some w → k' ≠ k → checkEntry snap k' w = none) →
          (Parse order fs l e nspace).err = some (.ErrWrongChecksum k actual expected))) ∧
      ((∃ ch ∈ expected.data, ch.isUpper = true) →
        checkEntry snap k (.str expected) = some (.ErrWrongChecksum k actual expected)) ∧
      (∀ pre post, expected = pre ++ actual ++ post → pre ≠ "" ∨ post ≠ "" →
        checkEntry snap k (.str expected) = some (.ErrWrongChecksum k actual expected)) := by
  have hs := Parse_once_loader order fs l e nspace c snap hns hlive hsnap
  have hck : checkEntry snap k (.str expected) =
      if expected = actual then none else some (.ErrWrongChecksum k actual expected) := by
    rw [checkEntry_str, hactual]
  have hrej : expected ≠ actual →
      checkEntry snap k (.str expected) = some (.ErrWrongChecksum k actual expected) := by
    intro h
    rw [hck, if_neg h]
  refine ⟨sum_length _, ?_, ?_, ?_, ?_, ?_, ?_⟩
  · rw [hactual, md5Hex_length]
  · rw [hactual]
    exact md5Hex_chars _
  · rw [hck]
    by_cases h : expected = actual <;> simp [h]
  · intro hne
    refine ⟨hrej hne, ?_, ?_⟩
    · cases herr : (Parse order fs l e nspace).err with
      | some err => exact ⟨err, rfl⟩
      | none =>
        rw [Parse_once order fs l e nspace c hns hlive] at herr
        simp only [hmd5, assertMap] at herr
        have := (verify_order_eq_none_iff order horder _ cs).1 herr k _ hentry
        rw [← hs, hrej hne] at this
        exact absurd this (by simp)
    · intro hothers
      rw [Parse_err_of_entry order fs l e nspace c cs k (.str expected) horder hns hlive hmd5
        hentry (by rw [← hs]; exact hothers), ← hs, hrej hne]
  · rintro ⟨ch, hch, hup⟩
    apply hrej
    intro heq
    have hmem : ch ∈ hextable := by
      have := md5Hex_chars (onceLoader.Get snap k).1 ch
      rw [← hactual, ← heq] at this
      exact this hch
    rw [hextable_not_upper ch hmem] at hup
    exact absurd hup (by simp)
  · intro pre post hexp hne
    apply hrej
    intro heq
    have hlen : expected.length = actual.length := by rw [heq]
    rw [hexp, String.length_append, String.length_append] at hlen
    rcases hne with h | h
    · have := string_length_pos_of_ne_empty pre h
      omega
    · have := string_length_pos_of_ne_empty post h
      omega

/-- C12, at the digest of `print(1)` spelled with uppercase letters. -/
theorem C12_witness :
    (Parse id exampleFS [] [("lua", .obj nsUpperDigest)] "lua").err =
      some (.ErrWrongChecksum "s.lua" digestPrint1 "186BDBE41E79EA696410BA0A9E8D2762") :=
  ((C12_digest_is_32_lowercase_hex_strict id exampleFS [] [("lua", .obj nsUpperDigest)] "lua"
    nsUpperDigest [("s.lua", .str "186BDBE41E79EA696410BA0A9E8D2762")] [("s.lua", "print(1)")]
    "s.lua" "186BDBE41E79EA696410BA0A9E8D2762" digestPrint1 (fun _ => List.Perm.refl _) rfl
    (by simp [nsUpperDigest, mapGet]) rfl rfl (by decide)
    (by
      have hc : (onceLoader.Get [("s.lua", "print(1)")] "s.lua").1 = "print(1)" := by decide
      rw [hc, md5Hex_print1])).2.2.2.2.1 (by decide)).2.2 (by
      intro k w hkw hk
      have hk' : ¬ "s.lua" = k := fun h => hk h.symm
      simp [mapGet, hk'] at hkw)

/-- C13: for every identifier and every state `fs1` of storage at call time,
the live loader's `Get` returns `(content, true)` when reading succeeds with
`content` and `("", false)` when it fails, and so does the loader of a
configuration parsed in live mode, whatever storage held at parse time; a call
against another state `fs2` returns the result of `fs2`: nothing is cached. -/
theorem C13_live_get_reads_storage
    (order : List (String × Value) → List (String × Value)) (fs : FileSystem) (l : Logger)
    (e : ExtraConfig) (nspace : String) (c : GoMap Value) (fs1 fs2 : FileSystem) (id : String)
    (hns : mapGet e nspace = some (.obj c))
    (hlive : mapGet c "live" = some (.bool true)) :
    (∀ content, fs1 id = .ok content → liveLoader.Get fs1 id = (content, true)) ∧
      (∀ msg, fs1 id = .error msg → liveLoader.Get fs1 id = ("", false)) ∧
      (Parse order fs l e nspace).cfg.Get fs1 id = some (liveLoader.Get fs1 id) ∧
      (Parse order fs l e nspace).cfg.Get fs2 id = some (liveLoader.Get fs2 id) ∧
      (∀ content msg, fs1 id = .ok content → fs2 id = .error msg →
        (Parse order fs l e nspace).cfg.Get fs1 id = some (content, true) ∧
        (Parse order fs l e nspace).cfg.Get fs2 id = some ("", false)) ∧
      (∀ content content', fs1 id = .ok content → fs2 id = .ok content' →
        (Parse order fs l e nspace).cfg.Get fs1 id = some (content, true) ∧
        (Parse order fs l e nspace).cfg.Get fs2 id = some (content', true)) := by
  have hget : ∀ fs', (Parse order fs l e nspace).cfg.Get fs' id = some (liveLoader.Get fs' id) := by
    intro fs'
    rw [Parse_live order fs l e nspace c hns hlive]
    rfl
  have hok : ∀ (fs' : FileSystem) content, fs' id = .ok content →
      liveLoader.Get fs' id = (content, true) := by
    intro fs' content h
    simp [liveLoader.Get, h]
  have hfail : ∀ (fs' : FileSystem) msg, fs' id = .error msg →
      liveLoader.Get fs' id = ("", false) := by
    intro fs' msg h
    simp [liveLoader.Get, h]
  refine ⟨hok fs1, hfail fs1, hget fs1, hget fs2, ?_, ?_⟩
  · intro content msg h1 h2
    rw [hget fs1, hget fs2, hok fs1 content h1, hfail fs2 msg h2]
    exact ⟨rfl, rfl⟩
  · intro content content' h1 h2
    rw [hget fs1, hget fs2, hok fs1 content h1, hok fs2 content' h2]
    exact ⟨rfl, rfl⟩

/-- C13, at `a.lua` read while it exists and again after it is gone. -/
theorem C13_witness :
    (Parse id emptyFS [] [("lua", .obj nsLiveOnly)] "lua").cfg.Get exampleFS "a.lua" =
        some ("x", true) ∧
      (Parse id emptyFS [] [("lua", .obj nsLiveOnly)] "lua").cfg.Get emptyFS "a.lua" =
        some ("", false) :=
  (C13_live_get_reads_storage id emptyFS [] [("lua", .obj nsLiveOnly)] "lua" nsLiveOnly
    exampleFS emptyFS "a.lua" rfl rfl).2.2.2.2.1 "x" _ rfl rfl

/-- C14: on every successful `Parse` the namespace is a mapping and exactly one
loader variant is set: the live loader if and only if the `live` option is the
boolean true, and a snapshot loader if and only if it is not (absent, false or
of another type); the loader is never left nil. -/
theorem C14_exactly_one_loader
    (order : List (String × Value) → List (String × Value)) (fs : FileSystem) (l : Logger)
    (e : ExtraConfig) (nspace : String)
    (herr : (Parse order fs l e nspace).err = none) :
    ∃ c, mapGet e nspace = some (.obj c) ∧
      ((Parse order fs l e nspace).cfg.SourceLoader = .live ↔
        mapGet c "live" = some (.bool true)) ∧
      ((∃ snap, (Parse order fs l e nspace).cfg.SourceLoader = .once snap) ↔
        mapGet c "live" ≠ some (.bool true)) ∧
      (Parse order fs l e nspace).cfg.SourceLoader ≠ .nil := by
  cases hns : mapGet e nspace with
  | none => simp [Parse_absent order fs l e nspace hns] at herr
  | some v =>
    by_cases hv : ∃ c, v = .obj c
    · obtain ⟨c, rfl⟩ := hv
      refine ⟨c, rfl, ?_⟩
      by_cases hlive : mapGet c "live" = some (.bool true)
      · rw [Parse_live order fs l e nspace c hns hlive]
        simp [hlive]
      · rw [Parse_once order fs l e nspace c hns hlive]
        simp [hlive]
    · have hv' : ∀ c, v ≠ .obj c := fun c h => hv ⟨c, h⟩
      simp [Parse_notMap order fs l e nspace v hns hv'] at herr

/-- C14, at a `live` option that is the string `true`: the snapshot loader is set. -/
theorem C14_witness :
    ∃ snap, (Parse id exampleFS [] [("lua", .obj nsLiveString)] "lua").cfg.SourceLoader =
      .once snap := by
  obtain ⟨c, hc, -, hsnap, -⟩ :=
    C14_exactly_one_loader id exampleFS [] [("lua", .obj nsLiveString)] "lua" (by decide)
  have hc' : c = nsLiveString := by
    have h : mapGet [("lua", Value.obj nsLiveString)] "lua" = some (.obj nsLiveString) := rfl
    rw [h] at hc
    injection hc with hc
    injection hc with hc
    exact hc.symm
  subst hc'
  exact hsnap.2 (by simp [nsLiveString, mapGet])

/-- C15: parsing the same input mapping twice in non-live mode against the same
file system, with any two orders of visit of the md5 mapping and any two logger
states, yields the same configuration: the same `Sources` and the same snapshot
loader, whose `Get` agrees on every identifier whatever storage holds when it
is called. -/
theorem C15_parse_idempotent
    (order order' : List (String × Value) → List (String × Value)) (fs : FileSystem)
    (l l' : Logger) (e : ExtraConfig) (nspace : String) (c : GoMap Value)
    (hns : mapGet e nspace = some (.obj c))
    (hlive : mapGet c "live" ≠ some (.bool true)) :
    (Parse order fs l e nspace).cfg.Sources = (Parse order' fs l' e nspace).cfg.Sources ∧
      (∃ snap, (Parse order fs l e nspace).cfg.SourceLoader = .once snap ∧
        (Parse order' fs l' e nspace).cfg.SourceLoader = .once snap) ∧
      (∀ fs1 fs2 id, (Parse order fs l e nspace).cfg.Get fs1 id =
        (Parse order' fs l' e nspace).cfg.Get fs2 id) ∧
      (Parse order fs l e nspace).cfg = (Parse order' fs l' e nspace).cfg := by
  rw [Parse_once order fs l e nspace c hns hlive, Parse_once order' fs l' e nspace c hns hlive,
    preload_fst_indep fs l l']
  exact ⟨rfl, ⟨_, rfl, rfl⟩, fun _ _ _ => rfl, rfl⟩

/-- C15, at a mapping with two md5 entries parsed in the two orders of visit. -/
theorem C15_witness :
    (Parse id exampleFS [] [("lua", .obj nsOneNumber)] "lua").cfg =
      (Parse List.reverse exampleFS [⟨["earlier"]⟩] [("lua", .obj nsOneNumber)] "lua").cfg :=
  (C15_parse_idempotent id List.reverse exampleFS [] [⟨["earlier"]⟩]
    [("lua", .obj nsOneNumber)] "lua" nsOneNumber rfl (by simp [nsOneNumber, mapGet])).2.2.2

theorem Parse_once_log (order : List (String × Value) → List (String × Value))
    (fs : FileSystem) (l : Logger) (e : ExtraConfig) (nspace : String) (c : GoMap Value)
    (hns : mapGet e nspace = some (.obj c)) (hlive : mapGet c "live" ≠ some (.bool true)) :
    (Parse order fs l e nspace).log =
      l ++ (Parse order fs l e nspace).cfg.Sources.filterMap (fun source =>
        match fs source with
        | .error err => some ⟨["lua:", err]⟩
        | .ok _ => none) := by
  rw [Parse_once order fs l e nspace c hns hlive]
  exact preload_fold_log fs _ [] l

/-- C17: with the logger as an append-only list, in non-live mode `Parse`
appends to the log exactly one entry `("lua:", err)` for each element of the
resolved `Sources` (duplicates counted) whose read fails with `err`, in source
order, and nothing else, whatever the md5 option and the returned error are; in
live mode, and when it fails with `ErrNoExtraConfig` or `ErrWrongExtraConfig`,
it leaves the log as it was. -/
theorem C17_log_entries
    (order : List (String × Value) → List (String × Value)) (fs : FileSystem) (l : Logger)
    (e : ExtraConfig) (nspace : String) :
    (∀ c, mapGet e nspace = some (.obj c) → mapGet c "live" ≠ some (.bool true) →
      (Parse order fs l e nspace).log =
        l ++ (Parse order fs l e nspace).cfg.Sources.filterMap (fun source =>
          match fs source with
          | .error err => some ⟨["lua:", err]⟩
          | .ok _ => none)) ∧
    (∀ c, mapGet e nspace = some (.obj c) → mapGet c "live" = some (.bool true) →
      (Parse order fs l e nspace).log = l) ∧
    ((Parse order fs l e nspace).err = some .ErrNoExtraConfig ∨
        (Parse order fs l e nspace).err = some .ErrWrongExtraConfig →
      (Parse order fs l e nspace).log = l) := by
  refine ⟨fun c hns hlive => Parse_once_log order fs l e nspace c hns hlive, ?_, ?_⟩
  · intro c hns hlive
    rw [Parse_live order fs l e nspace c hns hlive]
  · intro herr
    cases hns : mapGet e nspace with
    | none => rw [Parse_absent order fs l e nspace hns]
    | some v =>
      by_cases hv : ∃ c, v = .obj c
      · obtain ⟨c, rfl⟩ := hv
        by_cases hlive : mapGet c "live" = some (.bool true)
        · rw [Parse_live order fs l e nspace c hns hlive]
        · exfalso
          rw [Parse_once order fs l e nspace c hns hlive] at herr
          cases hm : assertMap (mapGet c "md5") with
          | none => simp [hm] at herr
          | some cs =>
            simp only [hm] at herr
            rcases herr with herr | herr
            · rcases verify_error_kind _ _ _ herr with ⟨k, hk⟩ | ⟨k, a, x, hk⟩ <;> cases hk
            · rcases verify_error_kind _ _ _ herr with ⟨k, hk⟩ | ⟨k, a, x, hk⟩ <;> cases hk
      · have hv' : ∀ c, v ≠ .obj c := fun c h => hv ⟨c, h⟩
        rw [Parse_notMap order fs l e nspace v hns hv']

/-- C17, at sources `b.lua`, `a.lua`, `b.lua` where `b.lua` is missing and the
digest of `a.lua` is wrong: two entries are appended, none for the checksum. -/
theorem C17_witness :
    (Parse id exampleFS [⟨["earlier"]⟩] [("lua", .obj nsFailingReads)] "lua").log =
      [⟨["earlier"]⟩, ⟨["lua:", "open b.lua: no such file or directory"]⟩,
        ⟨["lua:", "open b.lua: no such file or directory"]⟩] :=
  ((C17_log_entries id exampleFS [⟨["earlier"]⟩] [("lua", .obj nsFailingReads)] "lua").1
    nsFailingReads rfl (by simp [nsFailingReads, mapGet])).trans (by decide)

/-- C18: the `md5` option influences only the error `Parse` returns. For every
namespace mapping `c` and file system, parsing a mapping `c'` that has no `md5`
option and is otherwise the same returns no error and the very `Config` that
parsing `c` returns (`Sources`, `PreCode`, `PostCode`, both flags and the
loader with its snapshot content), in particular the one returned alongside an
`ErrWrongChecksum` or `ErrWrongChecksumType`. -/
theorem C18_md5_affects_only_error
    (order order' : List (String × Value) → List (String × Value)) (fs : FileSystem)
    (l : Logger) (e e' : ExtraConfig) (nspace : String) (c c' : GoMap Value)
    (hns : mapGet e nspace = some (.obj c))
    (hns' : mapGet e' nspace = some (.obj c'))
    (hnomd5 : mapGet c' "md5" = none)
    (hsame : ∀ k, k ≠ "md5" → mapGet c' k = mapGet c k) :
    (Parse order' fs l e' nspace).err = none ∧
      (Parse order' fs l e' nspace).cfg = (Parse order fs l e nspace).cfg ∧
      (((∃ S A E, (Parse order fs l e nspace).err = some (.ErrWrongChecksum S A E)) ∨
          ∃ S, (Parse order fs l e nspace).err = some (.ErrWrongChecksumType S)) →
        mapGet c "live" ≠ some (.bool true) ∧
        ∃ snap, (Parse order fs l e nspace).cfg.SourceLoader = .once snap ∧
          (Parse order' fs l e' nspace).cfg.SourceLoader = .once snap) := by
  have hopt : parseOptions {} c' = parseOptions {} c :=
    parseOptions_congr_of_eq {} c c' (hsame _ (by decide)) (hsame _ (by decide))
      (hsame _ (by decide)) (hsame _ (by decide)) (hsame _ (by decide))
  have hl : mapGet c' "live" = mapGet c "live" := hsame _ (by decide)
  by_cases hlive : mapGet c "live" = some (.bool true)
  · rw [Parse_live order fs l e nspace c hns hlive,
      Parse_live order' fs l e' nspace c' hns' (hl.trans hlive), hopt]
    refine ⟨rfl, rfl, ?_⟩
    rintro (⟨S, A, E, h⟩ | ⟨S, h⟩) <;> simp at h
  · rw [Parse_once order fs l e nspace c hns hlive,
      Parse_once order' fs l e' nspace c' hns' (by rw [hl]; exact hlive), hopt, hnomd5]
    exact ⟨rfl, rfl, fun _ => ⟨hlive, _, rfl, rfl⟩⟩

/-- C18, at `s.lua` with a wrong digest against the same mapping without `md5`. -/
theorem C18_witness :
    (Parse id exampleFS [] [("lua", .obj nsWrongNoMd5)] "lua").err = none ∧
      (Parse id exampleFS [] [("lua", .obj nsWrongNoMd5)] "lua").cfg =
        (Parse id exampleFS [] [("lua", .obj nsWrong)] "lua").cfg :=
  have h := C18_md5_affects_only_error id id exampleFS [] [("lua", .obj nsWrong)]
    [("lua", .obj nsWrongNoMd5)] "lua" nsWrong nsWrongNoMd5 rfl rfl rfl (by
      intro k hk
      have hk' : ¬ "md5" = k := fun h => hk h.symm
      simp [nsWrong, nsWrongNoMd5, mapGet, hk'])
  ⟨h.1, h.2.1⟩

end Lua
